import Mathlib

/-!
Verification of the handle-management and marshaling layer of the pdfium
bridge crate (src/crate/library.rs), as a shallow embedding in Lean 4.

Modeling conventions:
- Native pointers (FPDF_DOCUMENT, FPDF_PAGE, FPDF_TEXTPAGE, FPDF_BOOKMARK,
  FPDF_ACTION, FPDF_BITMAP, ...) are modeled as natural numbers; a nullable
  pointer is an Option Nat (none = NULL).
- The native pdfium library is an opaque capability provider: it is modeled
  as a structure of pure functions (NativeOracle).  Native functions that
  fill a caller-supplied buffer are split into a size-query field and a
  fill field, mirroring the two-phase protocol at the call sites.
- The u32 handle counter wraps modulo 2^32, matching release-mode Rust
  semantics of the u32 increment in alloc_handle.
- Rust HashMap<u32, V> is modeled as an association list with
  insert-by-cons (later bindings shadow earlier ones), lookup-first and
  remove-all; with unique keys this has exactly the HashMap semantics.
- Rust String values are modeled as lists of Unicode scalar values
  (List Nat); UTF-16 / UTF-8 decoding of native output is modeled
  explicitly (utf16Decode / utf8Decode below).
- f32/f64 values returned by or passed to the native library are only ever
  passed through unchanged by the bridge code under study, so they are
  modeled as rationals.
- Operations that take &mut self return a (result, new state) pair;
  operations that take &self return only the result (the Rust borrow
  checker guarantees they leave the state unchanged).
- The formatted payloads of error strings (for example the native error
  code appended by format!) are abbreviated to their fixed prefix; no
  claim depends on the formatted suffix.
-/

/-- One u32 unit: the modulus of the 32-bit handle counter. -/
def u32Mod : Nat := 4294967296

/-- Handle map entry, from enum HandleEntry: a tagged native pointer. -/
inductive HandleEntry where
  | Document : Nat → HandleEntry
  | Page : Nat → HandleEntry
  | TextPage : Nat → HandleEntry
deriving DecidableEq, Repr

/-- Lookup in an association list (HashMap::get semantics: first binding wins). -/
def lookupA {α : Type} : List (Nat × α) → Nat → Option α
  | [], _ => none
  | (k, v) :: rest, key => if k = key then some v else lookupA rest key

/-- Removal from an association list (HashMap::remove semantics: key gone afterwards). -/
def removeA {α : Type} (key : Nat) (l : List (Nat × α)) : List (Nat × α) :=
  l.filter (fun p => p.1 ≠ key)

/-- Mutable state of PdfiumLibrary: the handle table, the u32 handle counter
and the retained document byte buffers (doc_data). -/
structure BridgeState where
  handles : List (Nat × HandleEntry)
  nextHandle : Nat
  docData : List (Nat × List Nat)
deriving DecidableEq, Repr

/-- State of a freshly loaded PdfiumLibrary (PdfiumLibrary::load): empty
table, counter starts at 1, no retained buffers. -/
def initBridge : BridgeState := { handles := [], nextHandle := 1, docData := [] }

/-- Embedding of PdfiumLibrary::alloc_handle: issue the current counter
value, store the tagged entry, bump the u32 counter (wrapping). -/
def alloc_handle (s : BridgeState) (entry : HandleEntry) : Nat × BridgeState :=
  (s.nextHandle,
   { handles := (s.nextHandle, entry) :: s.handles
     nextHandle := (s.nextHandle + 1) % u32Mod
     docData := s.docData })

/-- The native pdfium library as an opaque oracle of pure functions.
Buffer-filling entry points are split into a Size field (the zero-capacity
size query) and a Fill field (the content the native call writes into the
caller buffer; the bridge pads/truncates it to the allocated capacity). -/
structure NativeOracle where
  loadMemDocument : List Nat → Option (List Nat) → Option Nat
  getLastError : Nat
  getPageCount : Nat → Int
  loadPage : Nat → Int → Option Nat
  getPageWidthF : Nat → Rat
  getPageHeightF : Nat → Rat
  textLoadPage : Nat → Option Nat
  textCountChars : Nat → Int
  textGetText : Nat → Int → Int → List Nat
  getMetaTextSize : Nat → List Nat → Nat
  getMetaTextFill : Nat → List Nat → Nat → List Nat
  textGetFontInfoSize : Nat → Int → Nat
  textGetFontInfoFill : Nat → Int → Nat → List Nat
  textGetFontInfoFlags : Nat → Int → Int
  actionGetUriPathSize : Nat → Nat → Nat
  actionGetUriPathFill : Nat → Nat → Nat → List Nat
  actionGetFilePathSize : Nat → Nat
  actionGetFilePathFill : Nat → Nat → List Nat
  bookmarkGetTitleSize : Nat → Nat
  bookmarkGetTitleFill : Nat → Nat → List Nat
  bookmarkGetFirstChild : Nat → Option Nat → Option Nat
  bookmarkGetNextSibling : Nat → Nat → Option Nat
  bookmarkGetDest : Nat → Nat → Option Nat
  destGetDestPageIndex : Nat → Nat → Int
  bitmapCreateEx : Int → Int → Int → Int → Option Nat
  bitmapFillRect : Nat → Int → Int → Int → Int → Nat → List Nat → List Nat
  renderPageBitmap : Nat → Nat → Int → Int → Int → Int → Int → Int → List Nat → List Nat
  importNPagesToOne : Nat → Rat → Rat → Nat → Nat → Option Nat
  getPageLabelSize : Nat → Int → Nat
  getPageLabelFill : Nat → Int → Nat → List Nat
  getSignatureObject : Nat → Int → Option Nat
  signatureGetContentsSize : Nat → Nat
  signatureGetContentsFill : Nat → Nat → List Nat
  signatureGetByteRangeCount : Nat → Nat
  signatureGetByteRangeFill : Nat → Nat → List Int
  signatureGetSubFilterSize : Nat → Nat
  signatureGetSubFilterFill : Nat → Nat → List Nat
  signatureGetReasonSize : Nat → Nat
  signatureGetReasonFill : Nat → Nat → List Nat
  signatureGetTimeSize : Nat → Nat
  signatureGetTimeFill : Nat → Nat → List Nat
  signatureGetDocMdpPermission : Nat → Int
  docGetAttachment : Nat → Int → Option Nat
  attachmentGetNameSize : Nat → Nat
  attachmentGetNameFill : Nat → Nat → List Nat
  attachmentGetFileQuery : Nat → Int × Nat
  attachmentGetFileFill : Nat → Nat → Nat × List Nat
  textGetBoundedTextSize : Nat → Rat → Rat → Rat → Rat → Int
  textGetBoundedTextFill : Nat → Rat → Rat → Rat → Rat → Int → Int × List Nat

/-- Embedding of load_document: an interior NUL byte in the password fails
CString::new; otherwise the bytes are copied, the native loader is called,
and on success a Document handle is issued and the copy is retained in
doc_data under that handle. -/
def load_document (o : NativeOracle) (s : BridgeState) (data : List Nat)
    (password : Option (List Nat)) : Except String Nat × BridgeState :=
  match password with
  | some pw =>
    if 0 ∈ pw then (Except.error "Invalid password", s)
    else
      match o.loadMemDocument data (some pw) with
      | none => (Except.error ("Failed to load document, error code: " ++ toString o.getLastError), s)
      | some doc =>
        let (handle, s1) := alloc_handle s (HandleEntry.Document doc)
        (Except.ok handle,
         { s1 with docData := (handle, data) :: s1.docData })
  | none =>
    match o.loadMemDocument data none with
    | none => (Except.error ("Failed to load document, error code: " ++ toString o.getLastError), s)
    | some doc =>
      let (handle, s1) := alloc_handle s (HandleEntry.Document doc)
      (Except.ok handle,
       { s1 with docData := (handle, data) :: s1.docData })

/-- Embedding of close_document: the entry is removed from the table first
(HashMap::remove), then matched on; in the wrong-kind arm the removed entry
is not re-inserted, and doc_data is only erased in the Document arm. -/
def close_document (s : BridgeState) (handle : Nat) : Except String Unit × BridgeState :=
  let removed := lookupA s.handles handle
  let s1 := { s with handles := removeA handle s.handles }
  match removed with
  | some (HandleEntry.Document _) =>
    (Except.ok (), { s1 with docData := removeA handle s1.docData })
  | some _ => (Except.error "Handle is not a document", s1)
  | none => (Except.error "Invalid handle", s1)

/-- Embedding of get_page_count (&self: state unchanged by construction). -/
def get_page_count (o : NativeOracle) (s : BridgeState) (docHandle : Nat) :
    Except String Int :=
  match lookupA s.handles docHandle with
  | some (HandleEntry.Document doc) => Except.ok (o.getPageCount doc)
  | _ => Except.error "Invalid document handle"

/-- Embedding of load_page. -/
def load_page (o : NativeOracle) (s : BridgeState) (docHandle : Nat) (index : Int) :
    Except String Nat × BridgeState :=
  match lookupA s.handles docHandle with
  | some (HandleEntry.Document doc) =>
    match o.loadPage doc index with
    | none => (Except.error ("Failed to load page " ++ toString index), s)
    | some page =>
      let (handle, s1) := alloc_handle s (HandleEntry.Page page)
      (Except.ok handle, s1)
  | _ => (Except.error "Invalid document handle", s)

/-- Embedding of close_page: same remove-then-match shape as close_document. -/
def close_page (s : BridgeState) (handle : Nat) : Except String Unit × BridgeState :=
  let removed := lookupA s.handles handle
  let s1 := { s with handles := removeA handle s.handles }
  match removed with
  | some (HandleEntry.Page _) => (Except.ok (), s1)
  | some _ => (Except.error "Handle is not a page", s1)
  | none => (Except.error "Invalid handle", s1)

/-- Embedding of get_page_width (&self; the f32 value is passed through). -/
def get_page_width (o : NativeOracle) (s : BridgeState) (pageHandle : Nat) :
    Except String Rat :=
  match lookupA s.handles pageHandle with
  | some (HandleEntry.Page page) => Except.ok (o.getPageWidthF page)
  | _ => Except.error "Invalid page handle"

/-- Embedding of get_page_height (&self). -/
def get_page_height (o : NativeOracle) (s : BridgeState) (pageHandle : Nat) :
    Except String Rat :=
  match lookupA s.handles pageHandle with
  | some (HandleEntry.Page page) => Except.ok (o.getPageHeightF page)
  | _ => Except.error "Invalid page handle"

/-- Embedding of load_text_page. -/
def load_text_page (o : NativeOracle) (s : BridgeState) (pageHandle : Nat) :
    Except String Nat × BridgeState :=
  match lookupA s.handles pageHandle with
  | some (HandleEntry.Page page) =>
    match o.textLoadPage page with
    | none => (Except.error "Failed to load text page", s)
    | some tp =>
      let (handle, s1) := alloc_handle s (HandleEntry.TextPage tp)
      (Except.ok handle, s1)
  | _ => (Except.error "Invalid page handle", s)

/-- Embedding of close_text_page: same remove-then-match shape. -/
def close_text_page (s : BridgeState) (handle : Nat) : Except String Unit × BridgeState :=
  let removed := lookupA s.handles handle
  let s1 := { s with handles := removeA handle s.handles }
  match removed with
  | some (HandleEntry.TextPage _) => (Except.ok (), s1)
  | some _ => (Except.error "Handle is not a text page", s1)
  | none => (Except.error "Invalid handle", s1)

/-- Embedding of count_text_chars (&self). -/
def count_text_chars (o : NativeOracle) (s : BridgeState) (tpHandle : Nat) :
    Except String Int :=
  match lookupA s.handles tpHandle with
  | some (HandleEntry.TextPage tp) => Except.ok (o.textCountChars tp)
  | _ => Except.error "Invalid text page handle"

/-- Embedding of import_n_pages_to_one: resolves the source Document handle,
calls the native N-up constructor and on success issues a new Document
handle; unlike load_document it records nothing in doc_data. -/
def import_n_pages_to_one (o : NativeOracle) (s : BridgeState) (srcHandle : Nat)
    (outputWidth outputHeight : Rat) (pagesPerRow pagesPerColumn : Nat) :
    Except String Nat × BridgeState :=
  match lookupA s.handles srcHandle with
  | some (HandleEntry.Document srcDoc) =>
    match o.importNPagesToOne srcDoc outputWidth outputHeight pagesPerRow pagesPerColumn with
    | none => (Except.error "Failed to create N-up document", s)
    | some newDoc =>
      let (handle, s1) := alloc_handle s (HandleEntry.Document newDoc)
      (Except.ok handle, s1)
  | _ => (Except.error "Invalid source document handle", s)

/-- Pad or truncate a list to exactly n elements, padding with 0: the
content of a zero-initialized caller buffer of capacity n after the native
fill call wrote the oracle-provided data into it. -/
def padTrunc (n : Nat) (l : List Nat) : List Nat :=
  l.take n ++ List.replicate (n - l.length) 0

/-- Drop a single trailing NUL if present: the shape of the buffer-trimming
step shared by the marshaling call sites (both the u16 index form and the
Vec::pop form in the source trim exactly one trailing zero). -/
def popTrailingZero (l : List Nat) : List Nat :=
  if l.getLast? = some 0 then l.dropLast else l

/-- Decode of a list of UTF-16 code units into Unicode scalar values;
returns none exactly when the source String::from_utf16 fails (an unpaired
surrogate). -/
def utf16Decode : List Nat → Option (List Nat)
  | [] => some []
  | u :: rest =>
    if u < 0xD800 ∨ 0xE000 ≤ u then
      (utf16Decode rest).map (fun t => u :: t)
    else if u < 0xDC00 then
      match rest with
      | [] => none
      | v :: rest2 =>
        if 0xDC00 ≤ v ∧ v < 0xE000 then
          (utf16Decode rest2).map (fun t => (0x10000 + (u - 0xD800) * 0x400 + (v - 0xDC00)) :: t)
        else none
    else none

/-- Decode of a list of bytes as UTF-8 into Unicode scalar values; returns
none exactly when String::from_utf8 fails (malformed, overlong, surrogate
or out-of-range sequences). -/
def utf8Decode : List Nat → Option (List Nat)
  | [] => some []
  | b :: rest =>
    if b < 0x80 then (utf8Decode rest).map (fun t => b :: t)
    else if b < 0xC2 then none
    else if b < 0xE0 then
      match rest with
      | c1 :: rest1 =>
        if 0x80 ≤ c1 ∧ c1 < 0xC0 then
          (utf8Decode rest1).map (fun t => ((b - 0xC2 + 2) * 0x40 + (c1 - 0x80)) :: t)
        else none
      | _ => none
    else if b < 0xF0 then
      match rest with
      | c1 :: c2 :: rest2 =>
        if (if b = 0xE0 then 0xA0 ≤ c1 ∧ c1 < 0xC0
            else if b = 0xED then 0x80 ≤ c1 ∧ c1 < 0xA0
            else 0x80 ≤ c1 ∧ c1 < 0xC0) ∧ 0x80 ≤ c2 ∧ c2 < 0xC0 then
          (utf8Decode rest2).map
            (fun t => ((b - 0xE0) * 0x1000 + (c1 - 0x80) * 0x40 + (c2 - 0x80)) :: t)
        else none
      | _ => none
    else if b < 0xF5 then
      match rest with
      | c1 :: c2 :: c3 :: rest3 =>
        if (if b = 0xF0 then 0x90 ≤ c1 ∧ c1 < 0xC0
            else if b = 0xF4 then 0x80 ≤ c1 ∧ c1 < 0x90
            else 0x80 ≤ c1 ∧ c1 < 0xC0) ∧ 0x80 ≤ c2 ∧ c2 < 0xC0 ∧ 0x80 ≤ c3 ∧ c3 < 0xC0 then
          (utf8Decode rest3).map
            (fun t => ((b - 0xF0) * 0x40000 + (c1 - 0x80) * 0x1000 + (c2 - 0x80) * 0x40 + (c3 - 0x80)) :: t)
        else none
      | _ => none
    else none

/-- Embedding of get_meta_text.  The second component of the result is the
list of capacities of the second-phase (fill) native calls that were made,
in order; the size query itself is always made once.  A reported size of 0
yields absent with no fill call; otherwise one fill call is made with
capacity exactly the reported byte size, into a u16 buffer of size/2 units;
a trailing NUL unit is trimmed, an empty trimmed text is absent, and a
UTF-16 decode failure is a distinct error. -/
def get_meta_text (o : NativeOracle) (s : BridgeState) (docHandle : Nat)
    (tag : List Nat) : (Except String (Option (List Nat))) × List Nat :=
  match lookupA s.handles docHandle with
  | some (HandleEntry.Document doc) =>
    if 0 ∈ tag then (Except.error "Invalid tag", [])
    else
      let size := o.getMetaTextSize doc tag
      if size = 0 then (Except.ok none, [])
      else
        let u16len := size / 2
        let buffer := padTrunc u16len (o.getMetaTextFill doc tag size)
        let trimmed := popTrailingZero buffer
        if trimmed = [] then (Except.ok none, [size])
        else
          match utf16Decode trimmed with
          | some text => (Except.ok (some text), [size])
          | none => (Except.error "UTF-16 decode error", [size])
  | _ => (Except.error "Invalid document handle", [])

/-- Embedding of read_action_uri: a reported size of at most 1 yields
absent with no fill call; otherwise one fill call with capacity exactly the
reported size, trailing-NUL trim, and UTF-8 decode whose failure is folded
into None by String::from_utf8(buf).ok(). -/
def read_action_uri (o : NativeOracle) (doc : Nat) (action : Nat) :
    Option (List Nat) × List Nat :=
  let size := o.actionGetUriPathSize doc action
  if size ≤ 1 then (none, [])
  else
    let buf := popTrailingZero (padTrunc size (o.actionGetUriPathFill doc action size))
    (utf8Decode buf, [size])

/-- Embedding of read_action_file_path: same shape as read_action_uri. -/
def read_action_file_path (o : NativeOracle) (action : Nat) :
    Option (List Nat) × List Nat :=
  let size := o.actionGetFilePathSize action
  if size ≤ 1 then (none, [])
  else
    let buf := popTrailingZero (padTrunc size (o.actionGetFilePathFill action size))
    (utf8Decode buf, [size])

/-- Embedding of read_bookmark_title: a reported size of at most 2 (the
UTF-16 NUL terminator) yields the empty string with no fill call; otherwise
one fill call with capacity exactly the reported byte size into a u16
buffer of size/2 units, trailing-NUL trim, and UTF-16 decode whose failure
is folded into the empty string by unwrap_or_default(). -/
def read_bookmark_title (o : NativeOracle) (bookmark : Nat) :
    List Nat × List Nat :=
  let size := o.bookmarkGetTitleSize bookmark
  if size ≤ 2 then ([], [])
  else
    let u16len := size / 2
    let buffer := padTrunc u16len (o.bookmarkGetTitleFill bookmark size)
    let trimmed := popTrailingZero buffer
    ((utf16Decode trimmed).getD [], [size])

/-- Embedding of get_char_font_info: a reported size of 0 yields absent
with no fill call; otherwise one fill call with capacity exactly the
reported size, trailing-NUL trim, and UTF-8 decode where both a decode
failure and an empty name are folded into absent. -/
def get_char_font_info (o : NativeOracle) (s : BridgeState) (tpHandle : Nat)
    (charIndex : Int) : (Except String (Option (List Nat × Int))) × List Nat :=
  match lookupA s.handles tpHandle with
  | some (HandleEntry.TextPage tp) =>
    let size := o.textGetFontInfoSize tp charIndex
    if size = 0 then (Except.ok none, [])
    else
      let buf := popTrailingZero (padTrunc size (o.textGetFontInfoFill tp charIndex size))
      let flags := o.textGetFontInfoFlags tp charIndex
      match utf8Decode buf with
      | some name =>
        if name = [] then (Except.ok none, [size])
        else (Except.ok (some (name, flags)), [size])
      | none => (Except.ok none, [size])
  | _ => (Except.error "Invalid text page handle", [])

/-- Embedding of get_full_text.  The second component is the list of
buffer capacities (in u16 units) of the text-fill native calls made: a
non-positive character count yields the empty string with no fill call;
otherwise a single fill call into a buffer of count + 1 units, and the
decode reads exactly the first count units (never the terminator slot). -/
def get_full_text (o : NativeOracle) (s : BridgeState) (tpHandle : Nat) :
    (Except String (List Nat)) × List Nat :=
  match lookupA s.handles tpHandle with
  | some (HandleEntry.TextPage tp) =>
    let charCount := o.textCountChars tp
    if charCount ≤ 0 then (Except.ok [], [])
    else
      let bufLen := charCount.toNat + 1
      let buffer := padTrunc bufLen (o.textGetText tp 0 charCount)
      match utf16Decode (buffer.take charCount.toNat) with
      | some text => (Except.ok text, [bufLen])
      | none => (Except.error "UTF-16 decode error", [bufLen])
  | _ => (Except.error "Invalid text page handle", [])

/-- In-place BGRA-to-RGBA conversion of render_page: swap the first and
third byte of every consecutive 4-byte pixel (the loop
for i in (0..buf_size).step_by(4) pixel_buf.swap(i, i+2), on a buffer
whose length is a multiple of 4). -/
def swapPixels : List Nat → List Nat
  | b :: g :: r :: a :: rest => r :: g :: b :: a :: swapPixels rest
  | l => l

/-- Content of the render_page pixel buffer after the native fill-rect and
rasterizer calls have written into it (before the BGRA-to-RGBA fix). -/
def renderPageRawBuffer (o : NativeOracle) (page : Nat)
    (width height rotation flags : Int) (bgColour : Nat) (bitmap : Nat) : List Nat :=
  let bufSize := (width * 4 * height).toNat
  let buf0 := List.replicate bufSize 0
  let buf1 := padTrunc bufSize (o.bitmapFillRect bitmap 0 0 width height bgColour buf0)
  padTrunc bufSize (o.renderPageBitmap bitmap page 0 0 width height rotation flags buf1)

/-- Embedding of render_page: resolve the Page handle, create a native
bitmap view over a width*height*4 byte buffer (stride width*4), fill the
background, rasterize, destroy the view, then swap bytes 4k and 4k+2 of
every pixel.  Negative width/height are outside the domain considered here
(the Rust cast to usize of a negative product is not modeled). -/
def render_page (o : NativeOracle) (s : BridgeState) (pageHandle : Nat)
    (width height rotation flags : Int) (bgColour : Nat) :
    Except String (List Nat) :=
  match lookupA s.handles pageHandle with
  | some (HandleEntry.Page page) =>
    let stride := width * 4
    match o.bitmapCreateEx width height 4 stride with
    | none => Except.error "Failed to create bitmap"
    | some bitmap =>
      Except.ok (swapPixels (renderPageRawBuffer o page width height rotation flags bgColour bitmap))
  | _ => Except.error "Invalid page handle"

/-- Maximum recursion depth for bookmark tree traversal (MAX_BOOKMARK_DEPTH). -/
def MAX_BOOKMARK_DEPTH : Nat := 100

/-- A node in the bookmark (outline) tree: title, zero-based destination
page index (-1 when the bookmark carries no destination), children. -/
inductive BNode where
  | mk : List Nat → Int → List BNode → BNode

/-- Title of a bookmark node. -/
def BNode.title : BNode → List Nat
  | BNode.mk t _ _ => t

/-- Destination page index of a bookmark node. -/
def BNode.pageIndex : BNode → Int
  | BNode.mk _ p _ => p

/-- Children of a bookmark node. -/
def BNode.children : BNode → List BNode
  | BNode.mk _ _ c => c

/-- Eager destination resolution done per visited bookmark in
collect_bookmarks: -1 when bookmark_get_dest returns null. -/
def bookmarkPageIndex (o : NativeOracle) (doc : Nat) (bookmark : Nat) : Int :=
  match o.bookmarkGetDest doc bookmark with
  | some dest => o.destGetDestPageIndex doc dest
  | none => -1

mutual
/-- Embedding of collect_bookmarks.  The native sibling enumeration is an
opaque pointer chase, so the while loop over next-sibling pointers need not
terminate; the embedding therefore carries a fuel parameter consumed at
every loop step, and returns none exactly when the source loop would still
be running after fuel iterations at some level.  The depth argument and the
cap test mirror the source exactly. -/
def collect_bookmarks (o : NativeOracle) (doc : Nat) :
    Nat → Option Nat → Nat → Option (List BNode)
  | 0, _, _ => none
  | fuel + 1, parent, depth =>
    if MAX_BOOKMARK_DEPTH < depth then some []
    else bookmarkLoop o doc fuel (o.bookmarkGetFirstChild doc parent) depth

/-- One iteration of the while loop of collect_bookmarks: read the title,
resolve the destination page index, recurse into the children at depth + 1,
then advance to the next sibling. -/
def bookmarkLoop (o : NativeOracle) (doc : Nat) :
    Nat → Option Nat → Nat → Option (List BNode)
  | _, none, _ => some []
  | 0, some _, _ => none
  | fuel + 1, some current, depth =>
    match collect_bookmarks o doc fuel (some current) (depth + 1),
          bookmarkLoop o doc fuel (o.bookmarkGetNextSibling doc current) depth with
    | some children, some rest =>
      some (BNode.mk (read_bookmark_title o current).1
              (bookmarkPageIndex o doc current) children :: rest)
    | _, _ => none
end

/-- Embedding of get_bookmarks: resolve the Document handle and start the
traversal from the implicit root (null parent) at depth 0. -/
def get_bookmarks (o : NativeOracle) (s : BridgeState) (fuel : Nat)
    (docHandle : Nat) : Except String (Option (List BNode)) :=
  match lookupA s.handles docHandle with
  | some (HandleEntry.Document doc) =>
    Except.ok (collect_bookmarks o doc fuel none 0)
  | _ => Except.error "Invalid document handle"

/-- One step along the native next-sibling chain. -/
def sibStep (o : NativeOracle) (doc : Nat) (x : Option Nat) : Option Nat :=
  x.bind (o.bookmarkGetNextSibling doc)

/-- Iterated sibling steps: the bookmark reached after k next-sibling
calls, none once the chain has ended. -/
def sibChase (o : NativeOracle) (doc : Nat) : Nat → Option Nat → Option Nat
  | 0, x => x
  | k + 1, x => sibChase o doc k (sibStep o doc x)

/-- Materialized sibling chain starting at a bookmark, with the same fuel
discipline as bookmarkLoop: none when the chain does not end within fuel
steps. -/
def sibList (o : NativeOracle) (doc : Nat) : Nat → Option Nat → Option (List Nat)
  | _, none => some []
  | 0, some _ => none
  | fuel + 1, some b =>
    (sibList o doc fuel (o.bookmarkGetNextSibling doc b)).map (fun t => b :: t)

mutual
/-- Height of a bookmark node: 1 plus the height of its forest of children. -/
def nodeDepth : BNode → Nat
  | BNode.mk _ _ children => 1 + forestDepth children

/-- Height of a bookmark forest: 0 when empty. -/
def forestDepth : List BNode → Nat
  | [] => 0
  | n :: rest => max (nodeDepth n) (forestDepth rest)
end

/-- Caller-facing operations that allocate or remove handles, for stating
trace properties of the handle table. -/
inductive BridgeOp where
  | loadDoc (data : List Nat) (password : Option (List Nat))
  | openPage (docHandle : Nat) (index : Int)
  | openTextPage (pageHandle : Nat)
  | closeDoc (handle : Nat)
  | closePg (handle : Nat)
  | closeTextPg (handle : Nat)
  | importN (srcHandle : Nat) (w h : Rat) (rows cols : Nat)

/-- Apply one operation, returning the new state and the handle it issued
(some h exactly when an open-style call succeeded and allocated). -/
def applyOp (o : NativeOracle) (s : BridgeState) : BridgeOp → BridgeState × Option Nat
  | BridgeOp.loadDoc data pw =>
    match load_document o s data pw with
    | (Except.ok h, s1) => (s1, some h)
    | (Except.error _, s1) => (s1, none)
  | BridgeOp.openPage dh i =>
    match load_page o s dh i with
    | (Except.ok h, s1) => (s1, some h)
    | (Except.error _, s1) => (s1, none)
  | BridgeOp.openTextPage ph =>
    match load_text_page o s ph with
    | (Except.ok h, s1) => (s1, some h)
    | (Except.error _, s1) => (s1, none)
  | BridgeOp.closeDoc h => ((close_document s h).2, none)
  | BridgeOp.closePg h => ((close_page s h).2, none)
  | BridgeOp.closeTextPg h => ((close_text_page s h).2, none)
  | BridgeOp.importN src w h rows cols =>
    match import_n_pages_to_one o s src w h rows cols with
    | (Except.ok hh, s1) => (s1, some hh)
    | (Except.error _, s1) => (s1, none)

/-- Run a sequence of operations from a state, collecting the issued
handles in order. -/
def runOps (o : NativeOracle) : BridgeState → List BridgeOp → BridgeState × List Nat
  | s, [] => (s, [])
  | s, op :: rest =>
    let step := applyOp o s op
    let tail := runOps o step.1 rest
    (tail.1, step.2.toList ++ tail.2)

/-- Pad or truncate a list of i32 values to exactly n elements (the
zero-initialized vec![0i32; count] buffer after the native fill). -/
def padTruncI (n : Nat) (l : List Int) : List Int :=
  l.take n ++ List.replicate (n - l.length) 0

/-- Little-endian byte pairing of chunks_exact(2) with u16::from_le_bytes:
a trailing odd byte is dropped. -/
def bytesToU16LE : List Nat → List Nat
  | a :: b :: rest => (a + 256 * b) :: bytesToU16LE rest
  | _ => []

/-- Lossy decode of UTF-16 code units into Unicode scalar values, as
String::from_utf16_lossy: every unpaired surrogate becomes U+FFFD. -/
def utf16DecodeLossy : List Nat → List Nat
  | [] => []
  | [u] => if u < 0xD800 ∨ 0xE000 ≤ u then [u] else [0xFFFD]
  | u :: v :: rest =>
    if u < 0xD800 ∨ 0xE000 ≤ u then u :: utf16DecodeLossy (v :: rest)
    else if u < 0xDC00 then
      if 0xDC00 ≤ v ∧ v < 0xE000 then
        (0x10000 + (u - 0xD800) * 0x400 + (v - 0xDC00)) :: utf16DecodeLossy rest
      else 0xFFFD :: utf16DecodeLossy (v :: rest)
    else 0xFFFD :: utf16DecodeLossy (v :: rest)
termination_by l => l.length
decreasing_by all_goals (simp only [List.length_cons]; omega)

/-- Embedding of get_page_label: same two-phase shape as get_meta_text
(threshold 0, u16 buffer of size/2 units filled with capacity exactly the
reported byte size, trailing-NUL trim, empty-after-trim is absent, UTF-16
decode failure is a distinct error).  The second component is the list of
fill-call capacities. -/
def get_page_label (o : NativeOracle) (s : BridgeState) (docHandle : Nat)
    (pageIndex : Int) : (Except String (Option (List Nat))) × List Nat :=
  match lookupA s.handles docHandle with
  | some (HandleEntry.Document doc) =>
    let size := o.getPageLabelSize doc pageIndex
    if size = 0 then (Except.ok none, [])
    else
      let u16len := size / 2
      let buffer := padTrunc u16len (o.getPageLabelFill doc pageIndex size)
      let trimmed := popTrailingZero buffer
      if trimmed = [] then (Except.ok none, [size])
      else
        match utf16Decode trimmed with
        | some text => (Except.ok (some text), [size])
        | none => (Except.error "UTF-16 decode error", [size])
  | _ => (Except.error "Invalid document handle", [])

/-- Contents block of get_signature: threshold 0, raw bytes, no trim. -/
def signature_contents (o : NativeOracle) (sig : Nat) : Option (List Nat) × List Nat :=
  let size := o.signatureGetContentsSize sig
  if 0 < size then (some (padTrunc size (o.signatureGetContentsFill sig size)), [size])
  else (none, [])

/-- Byte-range block of get_signature: threshold 0, a count of i32
elements, second call with capacity exactly that count. -/
def signature_byte_range (o : NativeOracle) (sig : Nat) : Option (List Int) × List Nat :=
  let count := o.signatureGetByteRangeCount sig
  if 0 < count then (some (padTruncI count (o.signatureGetByteRangeFill sig count)), [count])
  else (none, [])

/-- Sub-filter block of get_signature: 8-bit field, early absent for size
at most 1, trailing-NUL trim, UTF-8 decode folded into None by .ok(). -/
def signature_sub_filter (o : NativeOracle) (sig : Nat) : Option (List Nat) × List Nat :=
  let size := o.signatureGetSubFilterSize sig
  if 1 < size then
    (utf8Decode (popTrailingZero (padTrunc size (o.signatureGetSubFilterFill sig size))), [size])
  else (none, [])

/-- Reason block of get_signature: UTF-16LE bytes, early absent for size at
most 2, the final 2 terminator bytes dropped, byte pairs decoded lossily
(from_utf16_lossy never fails). -/
def signature_reason (o : NativeOracle) (sig : Nat) : Option (List Nat) × List Nat :=
  let size := o.signatureGetReasonSize sig
  if 2 < size then
    let buf := padTrunc size (o.signatureGetReasonFill sig size)
    (some (utf16DecodeLossy (bytesToU16LE (buf.take (size - 2)))), [size])
  else (none, [])

/-- Time block of get_signature: same shape as the sub-filter block. -/
def signature_time (o : NativeOracle) (sig : Nat) : Option (List Nat) × List Nat :=
  let size := o.signatureGetTimeSize sig
  if 1 < size then
    (utf8Decode (popTrailingZero (padTrunc size (o.signatureGetTimeFill sig size))), [size])
  else (none, [])

/-- Embedding of get_signature: resolve the Document handle, get the
signature object (null is an operation error), then read the five
variable-length fields with the blocks above and the DocMDP permission.
The second component concatenates the fill-call capacities in source
order. -/
def get_signature (o : NativeOracle) (s : BridgeState) (docHandle : Nat) (index : Int) :
    (Except String ((Option (List Nat)) × (Option (List Int)) × (Option (List Nat))
        × (Option (List Nat)) × (Option (List Nat)) × Int)) × List Nat :=
  match lookupA s.handles docHandle with
  | some (HandleEntry.Document doc) =>
    match o.getSignatureObject doc index with
    | none => (Except.error ("Failed to get signature at index " ++ toString index), [])
    | some sig =>
      let contents := signature_contents o sig
      let byteRange := signature_byte_range o sig
      let subFilter := signature_sub_filter o sig
      let reason := signature_reason o sig
      let time := signature_time o sig
      (Except.ok (contents.1, byteRange.1, subFilter.1, reason.1, time.1,
          o.signatureGetDocMdpPermission sig),
       contents.2 ++ byteRange.2 ++ subFilter.2 ++ reason.2 ++ time.2)
  | _ => (Except.error "Invalid document handle", [])

/-- Name block of get_attachment: threshold 0, u16 buffer of size/2 units
filled with capacity exactly the reported byte size, trailing-NUL trim,
UTF-16 decode folded into the empty string by unwrap_or_default. -/
def read_attachment_name (o : NativeOracle) (attachment : Nat) : List Nat × List Nat :=
  let size := o.attachmentGetNameSize attachment
  if 0 < size then
    let u16len := size / 2
    let buffer := padTrunc u16len (o.attachmentGetNameFill attachment size)
    ((utf16Decode (popTrailingZero buffer)).getD [], [size])
  else ([], [])

/-- Embedding of get_attachment: a null attachment object is Ok None; the
name is read by the block above; the file data uses the bool-and-out-length
query convention, a second call with capacity exactly the reported length,
and a truncation to the actually written length. -/
def get_attachment (o : NativeOracle) (s : BridgeState) (docHandle : Nat) (index : Int) :
    (Except String (Option (List Nat × List Nat))) × List Nat :=
  match lookupA s.handles docHandle with
  | some (HandleEntry.Document doc) =>
    match o.docGetAttachment doc index with
    | none => (Except.ok none, [])
    | some attachment =>
      let name := read_attachment_name o attachment
      let query := o.attachmentGetFileQuery attachment
      let fileData :=
        if query.1 ≠ 0 ∧ 0 < query.2 then
          let fill := o.attachmentGetFileFill attachment query.2
          ((padTrunc query.2 fill.2).take fill.1, [query.2])
        else ([], [])
      (Except.ok (some (name.1, fileData.1)), name.2 ++ fileData.2)
  | _ => (Except.error "Invalid document handle", [])

/-- Buffer slice that get_bounded_text hands to the UTF-16 decode: the
size-unit buffer filled by the second call, cut at the written count with a
single trailing NUL unit trimmed (the out-of-range index that would panic
in the source is read as 0 here; the decoded slice is unaffected in the
in-range cases). -/
def boundedTextTrimmed (o : NativeOracle) (tp : Nat)
    (left top right bottom : Rat) : List Nat :=
  let size := o.textGetBoundedTextSize tp left top right bottom
  let fill := o.textGetBoundedTextFill tp left top right bottom size
  let buffer := padTrunc size.toNat fill.2
  let len := if buffer.getD (fill.1.toNat - 1) 0 = 0 then fill.1.toNat - 1 else fill.1.toNat
  buffer.take len

/-- Embedding of get_bounded_text: the reported size is a signed count of
u16 units; a non-positive size yields the empty string with no second call;
otherwise one second call with capacity exactly size units; a non-positive
written count also yields the empty string; else the trimmed slice is
decoded, a UTF-16 failure being a distinct error. -/
def get_bounded_text (o : NativeOracle) (s : BridgeState) (tpHandle : Nat)
    (left top right bottom : Rat) : (Except String (List Nat)) × List Nat :=
  match lookupA s.handles tpHandle with
  | some (HandleEntry.TextPage tp) =>
    let size := o.textGetBoundedTextSize tp left top right bottom
    if size ≤ 0 then (Except.ok [], [])
    else
      let fill := o.textGetBoundedTextFill tp left top right bottom size
      if fill.1 ≤ 0 then (Except.ok [], [size.toNat])
      else
        match utf16Decode (boundedTextTrimmed o tp left top right bottom) with
        | some text => (Except.ok text, [size.toNat])
        | none => (Except.error "UTF-16 decode error", [size.toNat])
  | _ => (Except.error "Invalid text page handle", [])

/-- Lookup in the empty association list. -/
theorem lookupA_nil {α : Type} (key : Nat) : lookupA ([] : List (Nat × α)) key = none := rfl

/-- Lookup after a cons. -/
theorem lookupA_cons {α : Type} (k : Nat) (v : α) (rest : List (Nat × α)) (key : Nat) :
    lookupA ((k, v) :: rest) key = if k = key then some v else lookupA rest key := rfl

/-- Removal really removes: lookup of the removed key fails. -/
theorem lookupA_removeA_self {α : Type} (key : Nat) (m : List (Nat × α)) :
    lookupA (removeA key m) key = none := by
  induction m with
  | nil => rfl
  | cons kv rest ih =>
    by_cases hk : kv.1 = key
    · simpa [removeA, List.filter, hk] using ih
    · simpa [removeA, List.filter, hk, lookupA] using ih

/-- Removal leaves other keys alone. -/
theorem lookupA_removeA_ne {α : Type} (key k : Nat) (m : List (Nat × α)) (h : key ≠ k) :
    lookupA (removeA k m) key = lookupA m key := by
  induction m with
  | nil => rfl
  | cons kv rest ih =>
    obtain ⟨a, v⟩ := kv
    have hkk : ¬ k = key := fun e => h e.symm
    by_cases hak : a = k
    · have hke : ¬ a = key := fun e => h (by omega)
      simp [removeA, List.filter_cons, hak, lookupA, hke, hkk]
      simpa [removeA] using ih
    · by_cases hkey : a = key
      · simp [removeA, List.filter_cons, hak, lookupA, hkey, h]
      · simp [removeA, List.filter_cons, hak, lookupA, hkey, h]
        simpa [removeA] using ih

/-- Lookup of a key larger than every key present fails. -/
theorem lookupA_none_of_lt {α : Type} (m : List (Nat × α)) (n : Nat)
    (h : ∀ kv ∈ m, kv.1 < n) : lookupA m n = none := by
  induction m with
  | nil => rfl
  | cons kv rest ih =>
    have h1 : kv.1 < n := h kv (by simp)
    have h2 : kv.1 ≠ n := by omega
    simp [lookupA, h2, ih fun x hx => h x (by simp [hx])]

/-- Length of a padded/truncated buffer is exactly the requested capacity. -/
theorem padTrunc_length (n : Nat) (l : List Nat) : (padTrunc n l).length = n := by
  simp [padTrunc]
  omega

/-- Concrete native oracle used to evaluate the embedded operations on
explicit inputs: document pointer 10, page pointer 20, text page 30,
bitmap 40; an action URI field of reported size 1; a two-element top-level
bookmark chain 1, 2 where bookmark 1 has the single child 3. -/
def oConc : NativeOracle :=
  { loadMemDocument := fun _ _ => some 10
    getLastError := 7
    getPageCount := fun _ => 5
    loadPage := fun _ _ => some 20
    getPageWidthF := fun _ => 612
    getPageHeightF := fun _ => 792
    textLoadPage := fun _ => some 30
    textCountChars := fun _ => 3
    textGetText := fun _ _ _ => [72, 105, 33, 0]
    getMetaTextSize := fun _ _ => 8
    getMetaTextFill := fun _ _ _ => [84, 105, 0]
    textGetFontInfoSize := fun _ _ => 5
    textGetFontInfoFill := fun _ _ _ => [65, 114, 105, 97, 0]
    textGetFontInfoFlags := fun _ _ => 4
    actionGetUriPathSize := fun _ _ => 1
    actionGetUriPathFill := fun _ _ _ => [0]
    actionGetFilePathSize := fun _ => 0
    actionGetFilePathFill := fun _ _ => []
    bookmarkGetTitleSize := fun _ => 6
    bookmarkGetTitleFill := fun _ _ => [66, 77, 0]
    bookmarkGetFirstChild := fun _ p =>
      match p with | none => some 1 | some 1 => some 3 | _ => none
    bookmarkGetNextSibling := fun _ b => if b = 1 then some 2 else none
    bookmarkGetDest := fun _ _ => none
    destGetDestPageIndex := fun _ _ => 0
    bitmapCreateEx := fun _ _ _ _ => some 40
    bitmapFillRect := fun _ _ _ _ _ _ buf => buf
    renderPageBitmap := fun _ _ _ _ _ _ _ _ _ => [1, 2, 3, 4, 5, 6, 7, 8]
    importNPagesToOne := fun _ _ _ _ _ => some 11
    getPageLabelSize := fun _ _ => 0
    getPageLabelFill := fun _ _ _ => []
    getSignatureObject := fun _ _ => some 50
    signatureGetContentsSize := fun _ => 4
    signatureGetContentsFill := fun _ _ => [1, 2, 3, 4]
    signatureGetByteRangeCount := fun _ => 2
    signatureGetByteRangeFill := fun _ _ => [0, 100]
    signatureGetSubFilterSize := fun _ => 1
    signatureGetSubFilterFill := fun _ _ => [0]
    signatureGetReasonSize := fun _ => 8
    signatureGetReasonFill := fun _ _ => [82, 0, 33, 0, 65, 0, 0, 0]
    signatureGetTimeSize := fun _ => 3
    signatureGetTimeFill := fun _ _ => [68, 58, 0]
    signatureGetDocMdpPermission := fun _ => 1
    docGetAttachment := fun _ _ => some 60
    attachmentGetNameSize := fun _ => 6
    attachmentGetNameFill := fun _ _ => [70, 49, 0]
    attachmentGetFileQuery := fun _ => (1, 2)
    attachmentGetFileFill := fun _ _ => (2, [9, 8])
    textGetBoundedTextSize := fun _ _ _ _ _ => 3
    textGetBoundedTextFill := fun _ _ _ _ _ _ => (3, [72, 105, 0]) }

/-- Bridge state after loading one document through oConc: handle 1 is a
Document. -/
def sAfterDoc : BridgeState := (load_document oConc initBridge [37, 80, 68, 70] none).2

/-- Bridge state after additionally loading one page: handle 2 is a Page. -/
def sAfterPage : BridgeState := (load_page oConc sAfterDoc 1 0).2

/-- Claim C1: calling close_document with a live handle of the wrong kind
(here the Page handle 2) reports the WrongKind error, but the handle table
is not left unchanged: HashMap::remove already removed the entry and the
wrong-kind arm never re-inserts it, so the entry is no longer resolvable
afterwards, contradicting the claim that handle errors never change the
table.  This theorem evaluates the embedded code at that failing input. -/
theorem c1_wrong_kind_close_removes_entry :
    lookupA sAfterPage.handles 2 = some (HandleEntry.Page 20)
    ∧ (close_document sAfterPage 2).1 = Except.error "Handle is not a document"
    ∧ lookupA (close_document sAfterPage 2).2.handles 2 = none
    ∧ (close_document sAfterPage 2).2 ≠ sAfterPage := by
  refine ⟨rfl, rfl, rfl, ?_⟩
  decide

/-- Claim C4: the Page handle 2 resolves before any close, but after the
mismatched close_document call on it (which only reports WrongKind and is
not the matching close operation) it no longer resolves: get_page_width
fails and close_page reports NotFound, although close_page was never called
on it.  This theorem evaluates the embedded code at that failing input. -/
theorem c4_handle_dies_without_matching_close :
    get_page_width oConc sAfterPage 2 = Except.ok 612
    ∧ (close_document sAfterPage 2).1 = Except.error "Handle is not a document"
    ∧ get_page_width oConc (close_document sAfterPage 2).2 2 = Except.error "Invalid page handle"
    ∧ (close_page (close_document sAfterPage 2).2 2).1 = Except.error "Invalid handle" := by
  exact ⟨rfl, rfl, rfl, rfl⟩

/-- Claim C2, counterexample: get_page_count returns the very same error
value for a live handle of the wrong kind (the Page handle 2) and for a
handle that was never issued (999), so a resolve-style caller cannot
distinguish NotFound from WrongKind, contrary to the claim. -/
theorem c2_resolve_errors_indistinguishable :
    lookupA sAfterPage.handles 2 = some (HandleEntry.Page 20)
    ∧ lookupA sAfterPage.handles 999 = none
    ∧ get_page_count oConc sAfterPage 2 = get_page_count oConc sAfterPage 999
    ∧ get_page_count oConc sAfterPage 2 = Except.error "Invalid document handle" := by
  exact ⟨rfl, rfl, rfl, rfl⟩

/-- Claim C2, amended: the remove-style operations close_document,
close_page and close_text_page do distinguish NotFound (Invalid handle)
from WrongKind (Handle is not a ...), and the two error values differ; the
resolve-style operations such as get_page_count and get_page_width return
one merged error for both cases. -/
theorem c2_amended (o : NativeOracle) (s : BridgeState) (h : Nat) :
    (lookupA s.handles h = none →
        (close_document s h).1 = Except.error "Invalid handle"
        ∧ (close_page s h).1 = Except.error "Invalid handle"
        ∧ (close_text_page s h).1 = Except.error "Invalid handle"
        ∧ get_page_count o s h = Except.error "Invalid document handle"
        ∧ get_page_width o s h = Except.error "Invalid page handle")
    ∧ (∀ p, lookupA s.handles h = some (HandleEntry.Page p) →
        (close_document s h).1 = Except.error "Handle is not a document"
        ∧ (close_text_page s h).1 = Except.error "Handle is not a text page"
        ∧ get_page_count o s h = Except.error "Invalid document handle")
    ∧ (∀ d, lookupA s.handles h = some (HandleEntry.Document d) →
        (close_page s h).1 = Except.error "Handle is not a page"
        ∧ get_page_width o s h = Except.error "Invalid page handle")
    ∧ ("Invalid handle" : String) ≠ "Handle is not a document" := by
  refine ⟨?_, ?_, ?_, by decide⟩
  · intro hnone
    simp [close_document, close_page, close_text_page, get_page_count, get_page_width, hnone]
  · intro p hp
    simp [close_document, close_text_page, get_page_count, hp]
  · intro d hd
    simp [close_page, get_page_width, hd]

/-- Claim C2 amended, witness at concrete inputs: handle 999 was never
issued in sAfterPage and handle 2 is a Page there. -/
theorem c2_amended_witness :
    lookupA sAfterPage.handles 999 = none
    ∧ (close_document sAfterPage 999).1 = Except.error "Invalid handle"
    ∧ (close_document sAfterPage 2).1 = Except.error "Handle is not a document" :=
  ⟨rfl, ((c2_amended oConc sAfterPage 999).1 rfl).1,
    ((c2_amended oConc sAfterPage 2).2.1 20 rfl).1⟩


/-- Case analysis of load_document: either it issues exactly the current
counter value (bumping the counter), or it fails and leaves the state
untouched. -/
theorem load_document_cases (o : NativeOracle) (s : BridgeState) (data : List Nat)
    (pw : Option (List Nat)) :
    ((load_document o s data pw).1 = Except.ok s.nextHandle
      ∧ (load_document o s data pw).2.nextHandle = (s.nextHandle + 1) % u32Mod)
    ∨ ((∃ e, (load_document o s data pw).1 = Except.error e)
      ∧ (load_document o s data pw).2 = s) := by
  cases pw <;> simp only [load_document, alloc_handle] <;> (repeat' split) <;> simp_all

/-- Case analysis of load_page, same shape as load_document_cases. -/
theorem load_page_cases (o : NativeOracle) (s : BridgeState) (dh : Nat) (i : Int) :
    ((load_page o s dh i).1 = Except.ok s.nextHandle
      ∧ (load_page o s dh i).2.nextHandle = (s.nextHandle + 1) % u32Mod)
    ∨ ((∃ e, (load_page o s dh i).1 = Except.error e)
      ∧ (load_page o s dh i).2 = s) := by
  simp only [load_page, alloc_handle]
  (repeat' split) <;> simp_all

/-- Case analysis of load_text_page, same shape as load_document_cases. -/
theorem load_text_page_cases (o : NativeOracle) (s : BridgeState) (ph : Nat) :
    ((load_text_page o s ph).1 = Except.ok s.nextHandle
      ∧ (load_text_page o s ph).2.nextHandle = (s.nextHandle + 1) % u32Mod)
    ∨ ((∃ e, (load_text_page o s ph).1 = Except.error e)
      ∧ (load_text_page o s ph).2 = s) := by
  simp only [load_text_page, alloc_handle]
  (repeat' split) <;> simp_all

/-- Case analysis of import_n_pages_to_one, same shape as load_document_cases. -/
theorem import_n_pages_to_one_cases (o : NativeOracle) (s : BridgeState) (src : Nat)
    (w h : Rat) (rows cols : Nat) :
    ((import_n_pages_to_one o s src w h rows cols).1 = Except.ok s.nextHandle
      ∧ (import_n_pages_to_one o s src w h rows cols).2.nextHandle = (s.nextHandle + 1) % u32Mod)
    ∨ ((∃ e, (import_n_pages_to_one o s src w h rows cols).1 = Except.error e)
      ∧ (import_n_pages_to_one o s src w h rows cols).2 = s) := by
  simp only [import_n_pages_to_one, alloc_handle]
  (repeat' split) <;> simp_all

/-- The close operations never touch the handle counter. -/
theorem close_nextHandle (s : BridgeState) (h : Nat) :
    (close_document s h).2.nextHandle = s.nextHandle
    ∧ (close_page s h).2.nextHandle = s.nextHandle
    ∧ (close_text_page s h).2.nextHandle = s.nextHandle := by
  refine ⟨?_, ?_, ?_⟩ <;>
    (dsimp only [close_document, close_page, close_text_page]; (repeat' split) <;> rfl)

/-- Either an operation issues no handle and leaves the counter alone, or
it issues exactly the current counter value and bumps the counter by one
(wrapping at 2^32). -/
theorem applyOp_nextHandle (o : NativeOracle) (s : BridgeState) (op : BridgeOp) :
    ((applyOp o s op).2 = none ∧ (applyOp o s op).1.nextHandle = s.nextHandle)
    ∨ ((applyOp o s op).2 = some s.nextHandle
        ∧ (applyOp o s op).1.nextHandle = (s.nextHandle + 1) % u32Mod) := by
  cases op with
  | loadDoc data pw =>
    rcases hc : load_document o s data pw with ⟨r, st⟩
    rcases load_document_cases o s data pw with ⟨h1, h2⟩ | ⟨⟨e, h1⟩, h2⟩ <;>
      rw [hc] at h1 h2 <;> simp only at h1 h2 <;> subst h1 <;>
      simp [applyOp, hc, h2]
  | openPage dh i =>
    rcases hc : load_page o s dh i with ⟨r, st⟩
    rcases load_page_cases o s dh i with ⟨h1, h2⟩ | ⟨⟨e, h1⟩, h2⟩ <;>
      rw [hc] at h1 h2 <;> simp only at h1 h2 <;> subst h1 <;>
      simp [applyOp, hc, h2]
  | openTextPage ph =>
    rcases hc : load_text_page o s ph with ⟨r, st⟩
    rcases load_text_page_cases o s ph with ⟨h1, h2⟩ | ⟨⟨e, h1⟩, h2⟩ <;>
      rw [hc] at h1 h2 <;> simp only at h1 h2 <;> subst h1 <;>
      simp [applyOp, hc, h2]
  | closeDoc h => exact Or.inl ⟨rfl, (close_nextHandle s h).1⟩
  | closePg h => exact Or.inl ⟨rfl, (close_nextHandle s h).2.1⟩
  | closeTextPg h => exact Or.inl ⟨rfl, (close_nextHandle s h).2.2⟩
  | importN src w ht rows cols =>
    rcases hc : import_n_pages_to_one o s src w ht rows cols with ⟨r, st⟩
    rcases import_n_pages_to_one_cases o s src w ht rows cols with ⟨h1, h2⟩ | ⟨⟨e, h1⟩, h2⟩ <;>
      rw [hc] at h1 h2 <;> simp only at h1 h2 <;> subst h1 <;>
      simp [applyOp, hc, h2]

/-- Closed form of the issued-handle sequence: starting from a reduced
counter value, a run that issues N handles issues exactly
next + 0, ..., next + N - 1 modulo 2^32, and leaves the counter at
next + N modulo 2^32. -/
theorem runOps_issued (o : NativeOracle) (ops : List BridgeOp) (s : BridgeState)
    (hs : s.nextHandle < u32Mod) :
    (runOps o s ops).2
      = (List.range (runOps o s ops).2.length).map (fun i => (s.nextHandle + i) % u32Mod)
    ∧ (runOps o s ops).1.nextHandle
      = (s.nextHandle + (runOps o s ops).2.length) % u32Mod := by
  induction ops generalizing s with
  | nil => simp [runOps, Nat.mod_eq_of_lt hs]
  | cons op rest ih =>
    rcases applyOp_nextHandle o s op with ⟨h1, h2⟩ | ⟨h1, h2⟩
    · have hstep : runOps o s (op :: rest) = runOps o (applyOp o s op).1 rest := by
        simp [runOps, h1]
      rw [hstep]
      have hr := ih (applyOp o s op).1 (h2 ▸ hs)
      rwa [h2] at hr
    · have hlt : (applyOp o s op).1.nextHandle < u32Mod := by
        rw [h2]; exact Nat.mod_lt _ (by norm_num [u32Mod])
      obtain ⟨ihm, ihn⟩ := ih (applyOp o s op).1 hlt
      rw [h2] at ihm ihn
      have hstep2 : (runOps o s (op :: rest)).2
          = s.nextHandle :: (runOps o (applyOp o s op).1 rest).2 := by
        simp [runOps, h1]
      have hstep1 : (runOps o s (op :: rest)).1 = (runOps o (applyOp o s op).1 rest).1 := by
        simp [runOps, h1]
      constructor
      · rw [hstep2, List.length_cons, List.range_succ_eq_map, List.map_cons]
        refine List.cons_eq_cons.mpr ⟨by rw [Nat.add_zero, Nat.mod_eq_of_lt hs], ?_⟩
        conv_lhs => rw [ihm]
        rw [List.map_map]
        refine List.map_congr_left fun i _ => ?_
        simp only [Function.comp_apply, Nat.mod_add_mod]
        congr 1
        omega
      · rw [hstep1, hstep2, ihn, Nat.mod_add_mod, List.length_cons]
        congr 1
        omega

/-- Claim C5, amended: from a fresh bridge, any operation sequence that
issues at most 2^32 - 1 handles (allocations across documents, pages and
text pages, arbitrarily interleaved with closes) issues exactly the values
1, 2, ..., N in order: pairwise distinct and never 0.  The u32 counter
wraps at the 2^32-th allocation, which is issued the value 0 (see the
counterexample), so the bound is necessary. -/
theorem c5_amended (o : NativeOracle) (ops : List BridgeOp)
    (hlen : (runOps o initBridge ops).2.length ≤ u32Mod - 1) :
    (runOps o initBridge ops).2
      = (List.range (runOps o initBridge ops).2.length).map (fun i => i + 1)
    ∧ (runOps o initBridge ops).2.Pairwise (fun a b => a ≠ b)
    ∧ ∀ x ∈ (runOps o initBridge ops).2, 1 ≤ x := by
  obtain ⟨hmap, -⟩ := runOps_issued o ops initBridge (by norm_num [initBridge, u32Mod])
  have hb : initBridge.nextHandle = 1 := rfl
  rw [hb] at hmap
  have hform : (runOps o initBridge ops).2
      = (List.range (runOps o initBridge ops).2.length).map (fun i => i + 1) := by
    rw [hmap]
    simp only [List.length_map, List.length_range]
    refine List.map_congr_left fun i hi => ?_
    have hi2 : i < (runOps o initBridge ops).2.length := List.mem_range.mp hi
    have hL : (runOps o initBridge ops).2.length ≤ u32Mod - 1 := hlen
    have h1 : 1 + i < u32Mod := by unfold u32Mod at hL ⊢; omega
    rw [Nat.mod_eq_of_lt h1]
    omega
  refine ⟨hform, ?_, ?_⟩
  · rw [hform]
    exact List.Pairwise.map _ (fun a b (hab : a < b) => by omega) (List.pairwise_lt_range _)
  · intro x hx
    rw [hform] at hx
    obtain ⟨i, -, rfl⟩ := List.mem_map.mp hx
    omega

/-- From any state, a loadDoc operation through oConc always succeeds and
issues a handle, so a replicated loadDoc trace issues one handle per step. -/
theorem replicate_loadDoc_length (n : Nat) (s : BridgeState) :
    (runOps oConc s (List.replicate n (BridgeOp.loadDoc [] none))).2.length = n := by
  induction n generalizing s with
  | zero => rfl
  | succ m ih =>
    have hld : oConc.loadMemDocument [] none = some 10 := rfl
    simp only [List.replicate_succ, runOps, applyOp, load_document, hld, alloc_handle]
    simp [ih]

/-- Claim C5, counterexample: a trace of exactly 2^32 successful document
loads issues 2^32 handles of which the last is 0 — the 32-bit counter has
wrapped, violating both monotonic issuance and the rule that 0 is never a
valid handle value. -/
theorem c5_wrap_issues_zero :
    (runOps oConc initBridge
        (List.replicate u32Mod (BridgeOp.loadDoc [] none))).2.length = u32Mod
    ∧ 0 ∈ (runOps oConc initBridge
        (List.replicate u32Mod (BridgeOp.loadDoc [] none))).2 := by
  have hlen := replicate_loadDoc_length u32Mod initBridge
  refine ⟨hlen, ?_⟩
  obtain ⟨hmap, -⟩ := runOps_issued oConc
    (List.replicate u32Mod (BridgeOp.loadDoc [] none)) initBridge
    (by norm_num [initBridge, u32Mod])
  rw [hmap, hlen]
  refine List.mem_map.mpr ⟨u32Mod - 1, List.mem_range.mpr (by norm_num [u32Mod]), ?_⟩
  show (initBridge.nextHandle + (u32Mod - 1)) % u32Mod = 0
  norm_num [initBridge, u32Mod]

/-- Claim C5 amended, witness: a concrete two-load trace issues exactly the
handles 1 and 2, pairwise distinct. -/
theorem c5_amended_witness :
    (runOps oConc initBridge
        [BridgeOp.loadDoc [] none, BridgeOp.loadDoc [] none]).2.length ≤ u32Mod - 1
    ∧ (runOps oConc initBridge
        [BridgeOp.loadDoc [] none, BridgeOp.loadDoc [] none]).2.Pairwise (fun a b => a ≠ b) :=
  ⟨by norm_num [runOps, applyOp, load_document, oConc, alloc_handle, u32Mod],
   (c5_amended oConc [BridgeOp.loadDoc [] none, BridgeOp.loadDoc [] none]
      (by norm_num [runOps, applyOp, load_document, oConc, alloc_handle, u32Mod])).2.1⟩

/-- Statement shape of claim C3 at one call site: size 0 means no fill
call, any positive size means exactly one fill call with that capacity. -/
def marshalClaimOk (size : Nat) (fillCalls : List Nat) : Prop :=
  (size = 0 → fillCalls = []) ∧ (0 < size → fillCalls = [size])

/-- Claim C3, counterexample: at the read_action_uri call site a reported
size of 1 is positive, yet the operation returns absent without making the
second native call (the source returns early for size <= 1), so the claim
that every positive size triggers exactly one second call fails. -/
theorem c3_size_one_skips_second_call :
    oConc.actionGetUriPathSize 0 0 = 1
    ∧ read_action_uri oConc 0 0 = (none, [])
    ∧ ¬ marshalClaimOk (oConc.actionGetUriPathSize 0 0) ((read_action_uri oConc 0 0).2) := by
  refine ⟨rfl, rfl, ?_⟩
  intro hcl
  have h2 := hcl.2 (by decide)
  simp [read_action_uri, oConc] at h2

/-- Claim C3, amended: a reported size of 0 yields absent with no second
call at every site; at the sites whose field carries a NUL terminator the
early-absent region extends to the terminator size (1 byte for the 8-bit
action URI, action file path, signature sub-filter and signature time
fields; 2 bytes for the UTF-16 bookmark title and signature reason fields),
and above that threshold exactly one second call is made with capacity
exactly the reported size; at the metadata-text, page-label, font-info,
signature-contents, signature-byte-range, attachment-name and bounded-text
sites the threshold is 0 exactly as the claim states (the bounded-text size
is a signed unit count, whose non-positive values yield absent). -/
theorem c3_amended (o : NativeOracle) (s : BridgeState) (dh th : Nat)
    (doc action bookmark sig attachment : Nat) (tag : List Nat)
    (charIdx pageIndex : Int) (bl bt br bb : Rat) :
    (∀ d, lookupA s.handles dh = some (HandleEntry.Document d) → ¬ (0 ∈ tag) →
        (o.getMetaTextSize d tag = 0 → get_meta_text o s dh tag = (Except.ok none, []))
        ∧ (0 < o.getMetaTextSize d tag →
            (get_meta_text o s dh tag).2 = [o.getMetaTextSize d tag]))
    ∧ ((o.actionGetUriPathSize doc action ≤ 1 → read_action_uri o doc action = (none, []))
        ∧ (1 < o.actionGetUriPathSize doc action →
            (read_action_uri o doc action).2 = [o.actionGetUriPathSize doc action]))
    ∧ ((o.actionGetFilePathSize action ≤ 1 → read_action_file_path o action = (none, []))
        ∧ (1 < o.actionGetFilePathSize action →
            (read_action_file_path o action).2 = [o.actionGetFilePathSize action]))
    ∧ ((o.bookmarkGetTitleSize bookmark ≤ 2 → read_bookmark_title o bookmark = ([], []))
        ∧ (2 < o.bookmarkGetTitleSize bookmark →
            (read_bookmark_title o bookmark).2 = [o.bookmarkGetTitleSize bookmark]))
    ∧ (∀ tp, lookupA s.handles th = some (HandleEntry.TextPage tp) →
        (o.textGetFontInfoSize tp charIdx = 0 →
            get_char_font_info o s th charIdx = (Except.ok none, []))
        ∧ (0 < o.textGetFontInfoSize tp charIdx →
            (get_char_font_info o s th charIdx).2 = [o.textGetFontInfoSize tp charIdx]))
    ∧ (∀ d, lookupA s.handles dh = some (HandleEntry.Document d) →
        (o.getPageLabelSize d pageIndex = 0 →
            get_page_label o s dh pageIndex = (Except.ok none, []))
        ∧ (0 < o.getPageLabelSize d pageIndex →
            (get_page_label o s dh pageIndex).2 = [o.getPageLabelSize d pageIndex]))
    ∧ ((o.signatureGetContentsSize sig = 0 → signature_contents o sig = (none, []))
        ∧ (0 < o.signatureGetContentsSize sig →
            (signature_contents o sig).2 = [o.signatureGetContentsSize sig]))
    ∧ ((o.signatureGetByteRangeCount sig = 0 → signature_byte_range o sig = (none, []))
        ∧ (0 < o.signatureGetByteRangeCount sig →
            (signature_byte_range o sig).2 = [o.signatureGetByteRangeCount sig]))
    ∧ ((o.signatureGetSubFilterSize sig ≤ 1 → signature_sub_filter o sig = (none, []))
        ∧ (1 < o.signatureGetSubFilterSize sig →
            (signature_sub_filter o sig).2 = [o.signatureGetSubFilterSize sig]))
    ∧ ((o.signatureGetReasonSize sig ≤ 2 → signature_reason o sig = (none, []))
        ∧ (2 < o.signatureGetReasonSize sig →
            (signature_reason o sig).2 = [o.signatureGetReasonSize sig]))
    ∧ ((o.signatureGetTimeSize sig ≤ 1 → signature_time o sig = (none, []))
        ∧ (1 < o.signatureGetTimeSize sig →
            (signature_time o sig).2 = [o.signatureGetTimeSize sig]))
    ∧ ((o.attachmentGetNameSize attachment = 0 → read_attachment_name o attachment = ([], []))
        ∧ (0 < o.attachmentGetNameSize attachment →
            (read_attachment_name o attachment).2 = [o.attachmentGetNameSize attachment]))
    ∧ (∀ tp, lookupA s.handles th = some (HandleEntry.TextPage tp) →
        (o.textGetBoundedTextSize tp bl bt br bb ≤ 0 →
            get_bounded_text o s th bl bt br bb = (Except.ok [], []))
        ∧ (0 < o.textGetBoundedTextSize tp bl bt br bb →
            (get_bounded_text o s th bl bt br bb).2
              = [(o.textGetBoundedTextSize tp bl bt br bb).toNat])) := by
  refine ⟨?_, ⟨?_, ?_⟩, ⟨?_, ?_⟩, ⟨?_, ?_⟩, ?_, ?_, ⟨?_, ?_⟩, ⟨?_, ?_⟩, ⟨?_, ?_⟩,
    ⟨?_, ?_⟩, ⟨?_, ?_⟩, ⟨?_, ?_⟩, ?_⟩
  · intro d hd htag
    constructor
    · intro hz
      simp [get_meta_text, hd, htag, hz]
    · intro hpos
      have hz : ¬ o.getMetaTextSize d tag = 0 := by omega
      simp only [get_meta_text, hd, htag, if_false, hz, if_neg, not_false_eq_true]
      split <;> (try split) <;> rfl
  · intro hle
    simp [read_action_uri, hle]
  · intro hgt
    have : ¬ o.actionGetUriPathSize doc action ≤ 1 := by omega
    simp only [read_action_uri, this, if_neg, not_false_eq_true]
  · intro hle
    simp [read_action_file_path, hle]
  · intro hgt
    have : ¬ o.actionGetFilePathSize action ≤ 1 := by omega
    simp only [read_action_file_path, this, if_neg, not_false_eq_true]
  · intro hle
    simp [read_bookmark_title, hle]
  · intro hgt
    have : ¬ o.bookmarkGetTitleSize bookmark ≤ 2 := by omega
    simp only [read_bookmark_title, this, if_neg, not_false_eq_true]
  · intro tp htp
    constructor
    · intro hz
      simp [get_char_font_info, htp, hz]
    · intro hpos
      have hz : ¬ o.textGetFontInfoSize tp charIdx = 0 := by omega
      simp only [get_char_font_info, htp, hz, if_neg, not_false_eq_true]
      split <;> (try split) <;> rfl
  · intro d hd
    constructor
    · intro hz
      simp [get_page_label, hd, hz]
    · intro hpos
      have hz : ¬ o.getPageLabelSize d pageIndex = 0 := by omega
      simp only [get_page_label, hd, hz, if_neg, not_false_eq_true]
      split <;> (try split) <;> rfl
  · intro hz
    simp [signature_contents, hz]
  · intro hpos
    simp [signature_contents, hpos]
  · intro hz
    simp [signature_byte_range, hz]
  · intro hpos
    simp [signature_byte_range, hpos]
  · intro hle
    have : ¬ 1 < o.signatureGetSubFilterSize sig := by omega
    simp [signature_sub_filter, this]
  · intro hgt
    simp [signature_sub_filter, hgt]
  · intro hle
    have : ¬ 2 < o.signatureGetReasonSize sig := by omega
    simp [signature_reason, this]
  · intro hgt
    simp [signature_reason, hgt]
  · intro hle
    have : ¬ 1 < o.signatureGetTimeSize sig := by omega
    simp [signature_time, this]
  · intro hgt
    simp [signature_time, hgt]
  · intro hz
    simp [read_attachment_name, hz]
  · intro hpos
    simp [read_attachment_name, hpos]
  · intro tp htp
    constructor
    · intro hle
      simp [get_bounded_text, htp, hle]
    · intro hpos
      have hneg : ¬ o.textGetBoundedTextSize tp bl bt br bb ≤ 0 := by omega
      simp only [get_bounded_text, htp, hneg, if_neg, not_false_eq_true]
      split <;> (try split) <;> rfl

/-- Claim C3 amended, witness at concrete inputs: the size-1 URI field
yields absent with no second call; the size-5 font-info field and the
size-3 bounded-text field each yield exactly one second call with capacity
equal to the reported size. -/
theorem c3_amended_witness :
    (oConc.actionGetUriPathSize 0 0 ≤ 1 ∧ read_action_uri oConc 0 0 = (none, []))
    ∧ (0 < oConc.textGetFontInfoSize 30 0
        ∧ (get_char_font_info oConc (load_text_page oConc sAfterPage 2).2 3 0).2 = [5])
    ∧ (0 < oConc.textGetBoundedTextSize 30 0 0 0 0
        ∧ (get_bounded_text oConc (load_text_page oConc sAfterPage 2).2 3 0 0 0 0).2 = [3]) :=
  ⟨⟨by decide,
    (c3_amended oConc sAfterPage 1 3 0 0 0 50 60 [] 0 0 0 0 0 0).2.1.1 (by decide)⟩,
   ⟨by decide,
    ((c3_amended oConc (load_text_page oConc sAfterPage 2).2 1 3 0 0 0 50 60 [] 0 0
        0 0 0 0).2.2.2.2.1 30 rfl).2 (by decide)⟩,
   ⟨by decide,
    ((c3_amended oConc (load_text_page oConc sAfterPage 2).2 1 3 0 0 0 50 60 [] 0 0
        0 0 0 0).2.2.2.2.2.2.2.2.2.2.2.2 30 rfl).2 (by decide)⟩⟩

/-- Variant of oConc whose action URI field reports 3 bytes and fills the
buffer with 0xFF 0xFF 0x00 — invalid UTF-8 after the NUL trim. -/
def oBadUtf8 : NativeOracle :=
  { oConc with
    actionGetUriPathSize := fun _ _ => 3
    actionGetUriPathFill := fun _ _ _ => [255, 255, 0] }

/-- Claim C9, counterexample: the native fill call reports a non-empty URI
field (size 3) whose bytes fail UTF-8 decoding, yet read_action_uri returns
none — exactly the same result as for a legitimately absent field (oConc
reports size 1), so the decode error is not distinct from field-absent. -/
theorem c9_decode_failure_equals_absent :
    oBadUtf8.actionGetUriPathSize 0 0 = 3
    ∧ (read_action_uri oBadUtf8 0 0).2 = [3]
    ∧ utf8Decode [255, 255] = none
    ∧ (read_action_uri oBadUtf8 0 0).1 = none
    ∧ (read_action_uri oBadUtf8 0 0).1 = (read_action_uri oConc 0 0).1 := by
  refine ⟨rfl, rfl, by decide, rfl, rfl⟩

/-- Oracle whose full-text native output starts with a lone UTF-16 high
surrogate, so the text decode fails. -/
def oBadUtf16 : NativeOracle :=
  { oConc with textGetText := fun _ _ _ => [55296, 0, 0, 0] }

/-- Claim C9, amended: the Result-returning UTF-16 document/text fields —
metadata text, page label, full text and bounded text — report a decode
failure as an error distinct from the field-absent (or empty) success
result; but at the font-info, action-URI, action-file-path and
bookmark-title sites a decode failure is folded into the absent/empty
result, so there a malformed non-empty field is indistinguishable from a
legitimately empty one. -/
theorem c9_amended (o : NativeOracle) (s : BridgeState) (dh th : Nat)
    (doc action bookmark : Nat) (tag : List Nat) (charIdx pageIndex : Int)
    (bl bt br bb : Rat) :
    (∀ d, lookupA s.handles dh = some (HandleEntry.Document d) → ¬ (0 ∈ tag) →
        0 < o.getMetaTextSize d tag →
        popTrailingZero (padTrunc (o.getMetaTextSize d tag / 2)
            (o.getMetaTextFill d tag (o.getMetaTextSize d tag))) ≠ [] →
        utf16Decode (popTrailingZero (padTrunc (o.getMetaTextSize d tag / 2)
            (o.getMetaTextFill d tag (o.getMetaTextSize d tag)))) = none →
        (get_meta_text o s dh tag).1 = Except.error "UTF-16 decode error"
        ∧ ∀ r, (Except.error "UTF-16 decode error" : Except String (Option (List Nat)))
            ≠ Except.ok r)
    ∧ (1 < o.actionGetUriPathSize doc action →
        utf8Decode (popTrailingZero (padTrunc (o.actionGetUriPathSize doc action)
            (o.actionGetUriPathFill doc action (o.actionGetUriPathSize doc action)))) = none →
        (read_action_uri o doc action).1 = none)
    ∧ (2 < o.bookmarkGetTitleSize bookmark →
        utf16Decode (popTrailingZero (padTrunc (o.bookmarkGetTitleSize bookmark / 2)
            (o.bookmarkGetTitleFill bookmark (o.bookmarkGetTitleSize bookmark)))) = none →
        (read_bookmark_title o bookmark).1 = [])
    ∧ (∀ tp, lookupA s.handles th = some (HandleEntry.TextPage tp) →
        0 < o.textGetFontInfoSize tp charIdx →
        utf8Decode (popTrailingZero (padTrunc (o.textGetFontInfoSize tp charIdx)
            (o.textGetFontInfoFill tp charIdx (o.textGetFontInfoSize tp charIdx)))) = none →
        (get_char_font_info o s th charIdx).1 = Except.ok none)
    ∧ (∀ d, lookupA s.handles dh = some (HandleEntry.Document d) →
        0 < o.getPageLabelSize d pageIndex →
        popTrailingZero (padTrunc (o.getPageLabelSize d pageIndex / 2)
            (o.getPageLabelFill d pageIndex (o.getPageLabelSize d pageIndex))) ≠ [] →
        utf16Decode (popTrailingZero (padTrunc (o.getPageLabelSize d pageIndex / 2)
            (o.getPageLabelFill d pageIndex (o.getPageLabelSize d pageIndex)))) = none →
        (get_page_label o s dh pageIndex).1 = Except.error "UTF-16 decode error")
    ∧ (1 < o.actionGetFilePathSize action →
        utf8Decode (popTrailingZero (padTrunc (o.actionGetFilePathSize action)
            (o.actionGetFilePathFill action (o.actionGetFilePathSize action)))) = none →
        (read_action_file_path o action).1 = none)
    ∧ (∀ tp, lookupA s.handles th = some (HandleEntry.TextPage tp) →
        0 < o.textCountChars tp →
        utf16Decode ((padTrunc ((o.textCountChars tp).toNat + 1)
            (o.textGetText tp 0 (o.textCountChars tp))).take (o.textCountChars tp).toNat)
          = none →
        (get_full_text o s th).1 = Except.error "UTF-16 decode error")
    ∧ (∀ tp, lookupA s.handles th = some (HandleEntry.TextPage tp) →
        0 < o.textGetBoundedTextSize tp bl bt br bb →
        0 < (o.textGetBoundedTextFill tp bl bt br bb
            (o.textGetBoundedTextSize tp bl bt br bb)).1 →
        utf16Decode (boundedTextTrimmed o tp bl bt br bb) = none →
        (get_bounded_text o s th bl bt br bb).1 = Except.error "UTF-16 decode error") := by
  refine ⟨?_, ?_, ?_, ?_, ?_, ?_, ?_, ?_⟩
  · intro d hd htag hpos hne hdec
    have hz : ¬ o.getMetaTextSize d tag = 0 := by omega
    refine ⟨?_, fun r he => by cases he⟩
    simp [get_meta_text, hd, htag, hz, hne, hdec]
  · intro hgt hdec
    have hle : ¬ o.actionGetUriPathSize doc action ≤ 1 := by omega
    simp [read_action_uri, hle, hdec]
  · intro hgt hdec
    have hle : ¬ o.bookmarkGetTitleSize bookmark ≤ 2 := by omega
    simp [read_bookmark_title, hle, hdec]
  · intro tp htp hpos hdec
    have hz : ¬ o.textGetFontInfoSize tp charIdx = 0 := by omega
    simp [get_char_font_info, htp, hz, hdec]
  · intro d hd hpos hne hdec
    have hz : ¬ o.getPageLabelSize d pageIndex = 0 := by omega
    simp [get_page_label, hd, hz, hne, hdec]
  · intro hgt hdec
    have hle : ¬ o.actionGetFilePathSize action ≤ 1 := by omega
    simp [read_action_file_path, hle, hdec]
  · intro tp htp hpos hdec
    have hneg : ¬ o.textCountChars tp ≤ 0 := by omega
    simp [get_full_text, htp, hneg, hdec]
  · intro tp htp hspos hwpos hdec
    have h1 : ¬ o.textGetBoundedTextSize tp bl bt br bb ≤ 0 := by omega
    have h2 : ¬ (o.textGetBoundedTextFill tp bl bt br bb
        (o.textGetBoundedTextSize tp bl bt br bb)).1 ≤ 0 := by omega
    simp [get_bounded_text, htp, h1, h2, hdec]

/-- Claim C9 amended, witness at concrete inputs: the malformed URI field
of oBadUtf8 yields none (the absent result), while the malformed full-text
output of oBadUtf16 yields the distinct decode error. -/
theorem c9_amended_witness :
    (1 < oBadUtf8.actionGetUriPathSize 0 0
      ∧ utf8Decode (popTrailingZero (padTrunc (oBadUtf8.actionGetUriPathSize 0 0)
          (oBadUtf8.actionGetUriPathFill 0 0 (oBadUtf8.actionGetUriPathSize 0 0)))) = none)
    ∧ (read_action_uri oBadUtf8 0 0).1 = none
    ∧ (0 < oBadUtf16.textCountChars 30
      ∧ (get_full_text oBadUtf16 (load_text_page oConc sAfterPage 2).2 3).1
          = Except.error "UTF-16 decode error") :=
  ⟨⟨by decide, by decide⟩,
   (c9_amended oBadUtf8 initBridge 0 0 0 0 0 [] 0 0 0 0 0 0).2.1 (by decide) (by decide),
   ⟨by decide,
    (c9_amended oBadUtf16 (load_text_page oConc sAfterPage 2).2 1 3 0 0 0 [] 0 0
        0 0 0 0).2.2.2.2.2.2.1 30 rfl (by decide) (by decide)⟩⟩

/-- Claim C6: for a valid text-page handle, get_full_text returns the empty
string with no text-fill call when the character count is non-positive;
otherwise it makes exactly one text-fill call with a buffer of count + 1
UTF-16 units, the result is the decode of exactly the first count units,
and the result is unchanged under any modification of the native text
output beyond those first count units (the terminator slot is never
decoded). -/
theorem c6_get_full_text (o : NativeOracle) (s : BridgeState) (h tp : Nat)
    (hres : lookupA s.handles h = some (HandleEntry.TextPage tp)) :
    (o.textCountChars tp ≤ 0 → get_full_text o s h = (Except.ok [], []))
    ∧ (0 < o.textCountChars tp →
        (get_full_text o s h).2 = [(o.textCountChars tp).toNat + 1]
        ∧ (get_full_text o s h).1 =
            (match utf16Decode ((padTrunc ((o.textCountChars tp).toNat + 1)
                (o.textGetText tp 0 (o.textCountChars tp))).take (o.textCountChars tp).toNat) with
             | some text => Except.ok text
             | none => Except.error "UTF-16 decode error")
        ∧ ∀ o2 : NativeOracle, o2.textCountChars tp = o.textCountChars tp →
            (padTrunc ((o.textCountChars tp).toNat + 1)
                (o2.textGetText tp 0 (o.textCountChars tp))).take (o.textCountChars tp).toNat
              = (padTrunc ((o.textCountChars tp).toNat + 1)
                (o.textGetText tp 0 (o.textCountChars tp))).take (o.textCountChars tp).toNat →
            (get_full_text o2 s h).1 = (get_full_text o s h).1) := by
  constructor
  · intro hle
    simp [get_full_text, hres, hle]
  · intro hpos
    have hneg : ¬ o.textCountChars tp ≤ 0 := by omega
    refine ⟨?_, ?_, ?_⟩
    · simp only [get_full_text, hres, hneg, if_neg, not_false_eq_true]
      split <;> rfl
    · simp only [get_full_text, hres, hneg, if_neg, not_false_eq_true]
      split <;> rfl
    · intro o2 hcnt htake
      have hneg2 : ¬ o2.textCountChars tp ≤ 0 := by rw [hcnt]; omega
      simp only [get_full_text, hres, hneg, hneg2, if_neg, not_false_eq_true, hcnt, htake]

/-- Claim C6, witness: in the concrete state with text-page handle 3 the
count is 3 and one fill call with a 4-unit buffer is made. -/
theorem c6_get_full_text_witness :
    lookupA (load_text_page oConc sAfterPage 2).2.handles 3 = some (HandleEntry.TextPage 30)
    ∧ 0 < oConc.textCountChars 30
    ∧ (get_full_text oConc (load_text_page oConc sAfterPage 2).2 3).2 = [4] :=
  ⟨rfl, by decide,
    ((c6_get_full_text oConc (load_text_page oConc sAfterPage 2).2 3 30 rfl).2 (by decide)).1⟩

/-- Claim C10: load_document retains its source bytes in doc_data under the
issued handle; import_n_pages_to_one issues a Document handle without any
doc_data entry (its doc_data is untouched, and fresh-key states have no
entry for the new handle); close_document succeeds on any Document entry,
removing both the table entry and any retained buffer — so only documents
loaded from caller bytes have retained buffers. -/
theorem c10_doc_data_retention (o : NativeOracle) (s : BridgeState) :
    (∀ data pw h s1, load_document o s data pw = (Except.ok h, s1) →
        lookupA s1.docData h = some data
        ∧ ∃ d, lookupA s1.handles h = some (HandleEntry.Document d))
    ∧ (∀ src w ht rows cols h s1,
        import_n_pages_to_one o s src w ht rows cols = (Except.ok h, s1) →
        s1.docData = s.docData
        ∧ (∃ d, lookupA s1.handles h = some (HandleEntry.Document d))
        ∧ ((∀ kv ∈ s.docData, kv.1 < s.nextHandle) → lookupA s1.docData h = none))
    ∧ (∀ h d, lookupA s.handles h = some (HandleEntry.Document d) →
        (close_document s h).1 = Except.ok ()
        ∧ lookupA (close_document s h).2.handles h = none
        ∧ lookupA (close_document s h).2.docData h = none) := by
  refine ⟨?_, ?_, ?_⟩
  · intro data pw h s1 heq
    have main : ∀ opt, o.loadMemDocument data opt = o.loadMemDocument data opt := fun _ => rfl
    cases pw with
    | none =>
      cases hld : o.loadMemDocument data none with
      | none => simp [load_document, hld] at heq
      | some doc =>
        simp only [load_document, hld, alloc_handle, Prod.mk.injEq, Except.ok.injEq] at heq
        obtain ⟨h1, h2⟩ := heq
        subst h1
        subst h2
        exact ⟨by simp [lookupA], doc, by simp [lookupA]⟩
    | some pwv =>
      by_cases h0 : 0 ∈ pwv
      · simp [load_document, h0] at heq
      · cases hld : o.loadMemDocument data (some pwv) with
        | none => simp [load_document, h0, hld] at heq
        | some doc =>
          simp only [load_document, h0, hld, alloc_handle, if_neg, not_false_eq_true,
            Prod.mk.injEq, Except.ok.injEq] at heq
          obtain ⟨h1, h2⟩ := heq
          subst h1
          subst h2
          exact ⟨by simp [lookupA], doc, by simp [lookupA]⟩
  · intro src w ht rows cols h s1 heq
    cases hsrc : lookupA s.handles src with
    | none => simp [import_n_pages_to_one, hsrc] at heq
    | some e =>
      cases e with
      | Document d =>
        cases himp : o.importNPagesToOne d w ht rows cols with
        | none => simp [import_n_pages_to_one, hsrc, himp] at heq
        | some newDoc =>
          simp only [import_n_pages_to_one, hsrc, himp, alloc_handle, Prod.mk.injEq,
            Except.ok.injEq] at heq
          obtain ⟨h1, h2⟩ := heq
          subst h1
          subst h2
          refine ⟨rfl, ⟨newDoc, by simp [lookupA]⟩, fun hfresh => ?_⟩
          exact lookupA_none_of_lt s.docData s.nextHandle hfresh
      | Page p => simp [import_n_pages_to_one, hsrc] at heq
      | TextPage t => simp [import_n_pages_to_one, hsrc] at heq
  · intro h d hd
    refine ⟨by simp [close_document, hd], ?_, ?_⟩
    · simp only [close_document, hd]
      exact lookupA_removeA_self h s.handles
    · simp only [close_document, hd]
      exact lookupA_removeA_self h s.docData

/-- Claim C10, witness at concrete inputs: a loaded document retains its
bytes under handle 1, an N-up import issues handle 2 with no retained
buffer, and close_document succeeds on a loaded document. -/
theorem c10_doc_data_retention_witness :
    lookupA (load_document oConc initBridge [9, 9] none).2.docData 1 = some [9, 9]
    ∧ lookupA (import_n_pages_to_one oConc sAfterDoc 1 100 200 2 2).2.docData 2 = none
    ∧ (close_document sAfterDoc 1).1 = Except.ok () :=
  ⟨((c10_doc_data_retention oConc initBridge).1 [9, 9] none 1 _
      (Prod.ext_iff.mpr ⟨rfl, rfl⟩)).1,
   ((c10_doc_data_retention oConc sAfterDoc).2.1 1 100 200 2 2 2 _
      (Prod.ext_iff.mpr ⟨rfl, rfl⟩)).2.2 (by decide),
   ((c10_doc_data_retention oConc sAfterDoc).2.2 1 10 rfl).1⟩

/-- Swapping pixels preserves the buffer length. -/
theorem swapPixels_length : ∀ l : List Nat, (swapPixels l).length = l.length
  | [] => rfl
  | [_] => rfl
  | [_, _] => rfl
  | [_, _, _] => rfl
  | _ :: _ :: _ :: _ :: rest => by
    simp only [swapPixels, List.length_cons]
    rw [swapPixels_length rest]

/-- Indexing skips four leading cons cells (definitional). -/
theorem getD_cons4 (a b c d x : Nat) (l : List Nat) (n : Nat) :
    (a :: b :: c :: d :: l).getD (n + 4) x = l.getD n x := rfl

/-- Elementwise description of swapPixels: within every complete 4-byte
pixel, bytes 0 and 2 are exchanged and bytes 1 and 3 are unchanged. -/
theorem swapPixels_getD (k : Nat) : ∀ l : List Nat, 4 * k + 3 < l.length →
    (swapPixels l).getD (4 * k) 0 = l.getD (4 * k + 2) 0
    ∧ (swapPixels l).getD (4 * k + 2) 0 = l.getD (4 * k) 0
    ∧ (swapPixels l).getD (4 * k + 1) 0 = l.getD (4 * k + 1) 0
    ∧ (swapPixels l).getD (4 * k + 3) 0 = l.getD (4 * k + 3) 0 := by
  induction k with
  | zero =>
    intro l hl
    match l, hl with
    | a :: b :: c :: d :: rest, _ => simp [swapPixels, List.getD]
  | succ m ih =>
    intro l hl
    match l, hl with
    | a :: b :: c :: d :: rest, hl =>
      have hr : 4 * m + 3 < rest.length := by
        simp only [List.length_cons] at hl
        omega
      obtain ⟨e0, e2, e1, e3⟩ := ih rest hr
      have hsw : swapPixels (a :: b :: c :: d :: rest) = c :: b :: a :: d :: swapPixels rest := rfl
      refine ⟨?_, ?_, ?_, ?_⟩
      · rw [hsw, show (4 * (m + 1) : Nat) = 4 * m + 4 from by ring,
          show (4 * m + 4 + 2 : Nat) = (4 * m + 2) + 4 from by ring,
          getD_cons4, getD_cons4, e0]
      · rw [hsw, show (4 * (m + 1) : Nat) = 4 * m + 4 from by ring,
          show (4 * m + 4 + 2 : Nat) = (4 * m + 2) + 4 from by ring,
          getD_cons4, getD_cons4, e2]
      · rw [hsw, show (4 * (m + 1) + 1 : Nat) = (4 * m + 1) + 4 from by ring,
          getD_cons4, getD_cons4, e1]
      · rw [hsw, show (4 * (m + 1) + 3 : Nat) = (4 * m + 3) + 4 from by ring,
          getD_cons4, getD_cons4, e3]

/-- Claim C7: with a resolvable Page handle and a successful native bitmap
creation, render_page succeeds; the raw pixel buffer holds exactly
width * height * 4 bytes, and the returned bytes are the post-render buffer
with bytes 4k and 4k+2 exchanged for every pixel index k (bytes 4k+1 and
4k+3 unchanged). -/
theorem c7_render_page (o : NativeOracle) (s : BridgeState) (h page bitmap : Nat)
    (w ht rot fl : Int) (bg : Nat)
    (hres : lookupA s.handles h = some (HandleEntry.Page page))
    (hbm : o.bitmapCreateEx w ht 4 (w * 4) = some bitmap) :
    render_page o s h w ht rot fl bg
      = Except.ok (swapPixels (renderPageRawBuffer o page w ht rot fl bg bitmap))
    ∧ (renderPageRawBuffer o page w ht rot fl bg bitmap).length = (w * ht * 4).toNat
    ∧ ∀ r, render_page o s h w ht rot fl bg = Except.ok r →
        r.length = (w * ht * 4).toNat
        ∧ ∀ k, 4 * k + 3 < r.length →
            r.getD (4 * k) 0
              = (renderPageRawBuffer o page w ht rot fl bg bitmap).getD (4 * k + 2) 0
            ∧ r.getD (4 * k + 2) 0
              = (renderPageRawBuffer o page w ht rot fl bg bitmap).getD (4 * k) 0
            ∧ r.getD (4 * k + 1) 0
              = (renderPageRawBuffer o page w ht rot fl bg bitmap).getD (4 * k + 1) 0
            ∧ r.getD (4 * k + 3) 0
              = (renderPageRawBuffer o page w ht rot fl bg bitmap).getD (4 * k + 3) 0 := by
  have hre : render_page o s h w ht rot fl bg
      = Except.ok (swapPixels (renderPageRawBuffer o page w ht rot fl bg bitmap)) := by
    simp [render_page, hres, hbm]
  have hlenraw : (renderPageRawBuffer o page w ht rot fl bg bitmap).length
      = (w * ht * 4).toNat := by
    simp only [renderPageRawBuffer, padTrunc_length]
    congr 1
    ring
  refine ⟨hre, hlenraw, ?_⟩
  intro r hr
  rw [hre] at hr
  obtain rfl : swapPixels (renderPageRawBuffer o page w ht rot fl bg bitmap) = r :=
    Except.ok.injEq .. ▸ hr
  constructor
  · rw [swapPixels_length, hlenraw]
  · intro k hk
    have hk2 : 4 * k + 3 < (renderPageRawBuffer o page w ht rot fl bg bitmap).length := by
      rwa [swapPixels_length] at hk
    exact swapPixels_getD k _ hk2

/-- Claim C7, witness: rendering a 1x2 page through oConc returns the
8-byte buffer [1..8] with bytes 0 and 2 of each pixel exchanged. -/
theorem c7_render_page_witness :
    lookupA sAfterPage.handles 2 = some (HandleEntry.Page 20)
    ∧ oConc.bitmapCreateEx 1 2 4 (1 * 4) = some 40
    ∧ render_page oConc sAfterPage 2 1 2 0 0 0 = Except.ok [3, 2, 1, 4, 7, 6, 5, 8] := by
  refine ⟨rfl, rfl, ?_⟩
  rw [(c7_render_page oConc sAfterPage 2 20 40 1 2 0 0 0 rfl rfl).1]
  rfl

/-- Fuel monotonicity: a traversal that completes at some fuel completes
with the same result at any larger fuel (both for the tree walk and for
the sibling loop). -/
theorem bookmarks_mono (o : NativeOracle) (doc : Nat) : ∀ f : Nat,
    (∀ parent depth l, collect_bookmarks o doc f parent depth = some l →
        ∀ f', f ≤ f' → collect_bookmarks o doc f' parent depth = some l)
    ∧ (∀ current depth l, bookmarkLoop o doc f current depth = some l →
        ∀ f', f ≤ f' → bookmarkLoop o doc f' current depth = some l) := by
  intro f
  induction f with
  | zero =>
    constructor
    · intro parent depth l hc
      cases hc
    · intro current depth l hl f' hle
      cases current with
      | none =>
        cases hl
        cases f' <;> rfl
      | some b => cases hl
  | succ g ih =>
    constructor
    · intro parent depth l hc f' hle
      obtain ⟨f'', rfl⟩ : ∃ f'', f' = f'' + 1 := ⟨f' - 1, by omega⟩
      simp only [collect_bookmarks] at hc ⊢
      by_cases hd : MAX_BOOKMARK_DEPTH < depth
      · simpa [hd] using hc
      · simp only [hd, if_false] at hc ⊢
        exact ih.2 _ _ _ hc _ (by omega)
    · intro current depth l hl f' hle
      cases current with
      | none =>
        cases hl
        cases f' <;> rfl
      | some b =>
        obtain ⟨f'', rfl⟩ : ∃ f'', f' = f'' + 1 := ⟨f' - 1, by omega⟩
        simp only [bookmarkLoop] at hl ⊢
        cases hcc : collect_bookmarks o doc g (some b) (depth + 1) with
        | none => rw [hcc] at hl; cases hl
        | some children =>
          cases hll : bookmarkLoop o doc g (o.bookmarkGetNextSibling doc b) depth with
          | none => rw [hcc, hll] at hl; cases hl
          | some rest =>
            rw [hcc, hll] at hl
            rw [ih.1 _ _ _ hcc _ (by omega), ih.2 _ _ _ hll _ (by omega)]
            exact hl

/-- A call above the depth cap truncates to no children at any positive
fuel. -/
theorem collect_bookmarks_cap (o : NativeOracle) (doc : Nat) (f : Nat)
    (parent : Option Nat) (depth : Nat)
    (hd : MAX_BOOKMARK_DEPTH < depth) (hf : 0 < f) :
    collect_bookmarks o doc f parent depth = some [] := by
  obtain ⟨g, rfl⟩ : ∃ g, f = g + 1 := ⟨f - 1, by omega⟩
  simp [collect_bookmarks, hd]

/-- Depth bound: the height of any forest produced by a completed call is
bounded by the cap — the walk never builds nodes past depth
MAX_BOOKMARK_DEPTH + 1. -/
theorem bookmarks_depth (o : NativeOracle) (doc : Nat) : ∀ f : Nat,
    (∀ parent depth l, depth ≤ MAX_BOOKMARK_DEPTH + 1 →
        collect_bookmarks o doc f parent depth = some l →
        forestDepth l + depth ≤ MAX_BOOKMARK_DEPTH + 1)
    ∧ (∀ current depth l, depth ≤ MAX_BOOKMARK_DEPTH →
        bookmarkLoop o doc f current depth = some l →
        forestDepth l + depth ≤ MAX_BOOKMARK_DEPTH + 1) := by
  intro f
  induction f with
  | zero =>
    constructor
    · intro parent depth l _ hc
      cases hc
    · intro current depth l hdep hl
      cases current with
      | none =>
        cases hl
        simp [forestDepth]
        omega
      | some b => cases hl
  | succ g ih =>
    constructor
    · intro parent depth l hdep hc
      simp only [collect_bookmarks] at hc
      by_cases hd : MAX_BOOKMARK_DEPTH < depth
      · simp only [hd, if_true] at hc
        cases hc
        simp [forestDepth]
        omega
      · simp only [hd, if_false] at hc
        exact ih.2 _ _ _ (by omega) hc
    · intro current depth l hdep hl
      cases current with
      | none =>
        cases hl
        simp [forestDepth]
        omega
      | some b =>
        simp only [bookmarkLoop] at hl
        cases hcc : collect_bookmarks o doc g (some b) (depth + 1) with
        | none => rw [hcc] at hl; cases hl
        | some children =>
          cases hll : bookmarkLoop o doc g (o.bookmarkGetNextSibling doc b) depth with
          | none => rw [hcc, hll] at hl; cases hl
          | some rest =>
            rw [hcc, hll] at hl
            cases hl
            have h1 := ih.1 _ _ _ (by omega) hcc
            have h2 : forestDepth rest + depth ≤ MAX_BOOKMARK_DEPTH + 1 := by
              cases hrest2 : rest with
              | nil => simp [forestDepth]; omega
              | cons r rs =>
                rw [hrest2] at hll
                exact ih.2 _ _ _ hdep hll
            simp only [forestDepth, nodeDepth]
            omega

/-- Sibling-order preservation: a completed sibling loop at any level
produces exactly one node per bookmark of the native sibling chain, in
chain order, with the titles and destination page indices read from those
bookmarks. -/
theorem bookmarkLoop_order (o : NativeOracle) (doc : Nat) : ∀ (f : Nat)
    (current : Option Nat) (depth : Nat) (l : List BNode),
    bookmarkLoop o doc f current depth = some l →
    ∃ chain, sibList o doc f current = some chain
      ∧ l.map BNode.title = chain.map (fun b => (read_bookmark_title o b).1)
      ∧ l.map BNode.pageIndex = chain.map (bookmarkPageIndex o doc) := by
  intro f
  induction f with
  | zero =>
    intro current depth l hl
    cases current with
    | none =>
      cases hl
      exact ⟨[], rfl, rfl, rfl⟩
    | some b => cases hl
  | succ g ih =>
    intro current depth l hl
    cases current with
    | none =>
      cases hl
      exact ⟨[], rfl, rfl, rfl⟩
    | some b =>
      simp only [bookmarkLoop] at hl
      cases hcc : collect_bookmarks o doc g (some b) (depth + 1) with
      | none => rw [hcc] at hl; cases hl
      | some children =>
        cases hll : bookmarkLoop o doc g (o.bookmarkGetNextSibling doc b) depth with
        | none => rw [hcc, hll] at hl; cases hl
        | some rest =>
          rw [hcc, hll] at hl
          cases hl
          obtain ⟨chain, hchain, htitle, hpage⟩ := ih _ depth _ hll
          refine ⟨b :: chain, ?_, ?_, ?_⟩
          · simp [sibList, hchain]
          · simp [BNode.title, htitle]
          · simp [BNode.pageIndex, hpage]

/-- A sibling chase starting from the null bookmark stays null. -/
theorem sibChase_none (o : NativeOracle) (doc : Nat) : ∀ k : Nat,
    sibChase o doc k none = none := by
  intro k
  induction k with
  | zero => rfl
  | succ i ih => simpa [sibChase, sibStep] using ih

/-- If every sibling chain from x dies within j steps, the materialized
chain of fuel j exists. -/
theorem sibList_total (o : NativeOracle) (doc : Nat) : ∀ (j : Nat) (x : Option Nat),
    sibChase o doc j x = none → ∃ c, sibList o doc j x = some c := by
  intro j
  induction j with
  | zero =>
    intro x hx
    cases x with
    | none => exact ⟨[], rfl⟩
    | some b => cases hx
  | succ i ih =>
    intro x hx
    cases x with
    | none => exact ⟨[], rfl⟩
    | some b =>
      have hx2 : sibChase o doc i (o.bookmarkGetNextSibling doc b) = none := hx
      obtain ⟨c, hc⟩ := ih _ hx2
      exact ⟨b :: c, by simp [sibList, hc]⟩

/-- Fuel sufficient for a full traversal over chains of length at most k,
by remaining depth allowance. -/
def bookmarkFuel (k : Nat) : Nat → Nat
  | 0 => 1
  | a + 1 => bookmarkFuel k a + k + 1

/-- Positivity of bookmarkFuel. -/
theorem bookmarkFuel_pos (k a : Nat) : 0 < bookmarkFuel k a := by
  cases a <;> simp [bookmarkFuel]

/-- Totality: when every sibling chain of the outline dies within k steps,
the traversal completes at fuel bookmarkFuel k a for every depth with
allowance a. -/
theorem collect_bookmarks_total (o : NativeOracle) (doc k : Nat)
    (hk : ∀ b, sibChase o doc k (some b) = none) :
    ∀ (a depth : Nat) (parent : Option Nat), MAX_BOOKMARK_DEPTH + 1 ≤ depth + a →
    ∃ l, collect_bookmarks o doc (bookmarkFuel k a) parent depth = some l := by
  intro a
  induction a with
  | zero =>
    intro depth parent hd
    exact ⟨[], collect_bookmarks_cap o doc _ parent depth (by omega) (bookmarkFuel_pos k 0)⟩
  | succ a ih =>
    intro depth parent hd
    by_cases hcap : MAX_BOOKMARK_DEPTH < depth
    · exact ⟨[], collect_bookmarks_cap o doc _ parent depth hcap (bookmarkFuel_pos k (a + 1))⟩
    · have hloop : ∀ (j : Nat) (x : Option Nat), sibChase o doc j x = none →
          ∃ l, bookmarkLoop o doc (bookmarkFuel k a + j) x depth = some l := by
        intro j
        induction j with
        | zero =>
          intro x hx
          cases x with
          | none => exact ⟨[], by cases h : bookmarkFuel k a <;> rfl⟩
          | some b => cases hx
        | succ i ihj =>
          intro x hx
          cases x with
          | none => exact ⟨[], by cases h : bookmarkFuel k a + (i + 1) <;> rfl⟩
          | some b =>
            obtain ⟨lc, hlc⟩ := ih (depth + 1) (some b) (by omega)
            have hlc2 : collect_bookmarks o doc (bookmarkFuel k a + i) (some b) (depth + 1)
                = some lc :=
              (bookmarks_mono o doc (bookmarkFuel k a)).1 _ _ _ hlc _ (by omega)
            obtain ⟨lr, hlr⟩ := ihj (o.bookmarkGetNextSibling doc b) hx
            refine ⟨BNode.mk (read_bookmark_title o b).1 (bookmarkPageIndex o doc b) lc :: lr, ?_⟩
            have hfe : bookmarkFuel k a + (i + 1) = (bookmarkFuel k a + i) + 1 := rfl
            rw [hfe]
            simp only [bookmarkLoop]
            rw [hlc2, hlr]
      have hfc : sibChase o doc k (o.bookmarkGetFirstChild doc parent) = none := by
        cases hfc0 : o.bookmarkGetFirstChild doc parent with
        | none => exact sibChase_none o doc k
        | some b => exact hk b
      obtain ⟨l, hl⟩ := hloop k _ hfc
      refine ⟨l, ?_⟩
      have hfe : bookmarkFuel k (a + 1) = (bookmarkFuel k a + k) + 1 := rfl
      rw [hfe]
      simp only [collect_bookmarks, hcap, if_false]
      exact hl

/-- Termination of the bookmark traversal from the document root, as an
existence of sufficient fuel for the fueled embedding (the source while
loop completes if and only if some fuel suffices). -/
def traversalTerminates (o : NativeOracle) (doc : Nat) : Prop :=
  ∃ fuel, (collect_bookmarks o doc fuel none 0).isSome

/-- Outline oracle with a sibling-level cycle: the root has one child,
bookmark 1, whose next-sibling pointer points back to itself. -/
def oCyc : NativeOracle :=
  { oConc with
    bookmarkGetFirstChild := fun _ p => match p with | none => some 1 | some _ => none
    bookmarkGetNextSibling := fun _ b => some b }

/-- On the cyclic-sibling outline the loop never completes at any fuel. -/
theorem oCyc_loop_none : ∀ (f b depth : Nat),
    bookmarkLoop oCyc 0 f (some b) depth = none := by
  intro f
  induction f with
  | zero => intro b depth; rfl
  | succ g ih =>
    intro b depth
    simp only [bookmarkLoop]
    have hns : oCyc.bookmarkGetNextSibling 0 b = some b := rfl
    rw [hns, ih b depth]
    cases collect_bookmarks oCyc 0 g (some b) (depth + 1) <;> rfl

/-- Claim C8, counterexample: the depth cap does not guard sibling-level
cycles — on an outline whose bookmark 1 is its own next sibling the
while loop of collect_bookmarks runs forever (no fuel completes it), so
the traversal does not terminate on every malformed or cyclic outline. -/
theorem c8_sibling_cycle_diverges : ¬ traversalTerminates oCyc 0 := by
  rintro ⟨fuel, hf⟩
  cases fuel with
  | zero => simp [collect_bookmarks] at hf
  | succ g =>
    have h0 : ¬ MAX_BOOKMARK_DEPTH < 0 := by omega
    have hfc : oCyc.bookmarkGetFirstChild 0 none = some 1 := rfl
    simp only [collect_bookmarks, h0, if_false, hfc, oCyc_loop_none,
      Option.isSome_none] at hf
    cases hf

/-- Claim C8, amended: the traversal behind get_bookmarks is a pre-order
walk that preserves the native sibling order at every level; a call whose
depth exceeds the cap (100) returns no children rather than failing, and
no completed walk builds nodes deeper than the cap allows; the traversal
terminates on every outline whose sibling chains are finite (in particular
on any cycle through the child relation, which the depth cap truncates) —
but not on a sibling-level cycle (see the counterexample). -/
theorem c8_amended (o : NativeOracle) (doc : Nat) :
    (∀ fuel parent depth, MAX_BOOKMARK_DEPTH < depth → 0 < fuel →
        collect_bookmarks o doc fuel parent depth = some [])
    ∧ (∀ fuel parent depth l, depth ≤ MAX_BOOKMARK_DEPTH + 1 →
        collect_bookmarks o doc fuel parent depth = some l →
        forestDepth l + depth ≤ MAX_BOOKMARK_DEPTH + 1)
    ∧ (∀ fuel current depth l, bookmarkLoop o doc fuel current depth = some l →
        ∃ chain, sibList o doc fuel current = some chain
          ∧ l.map BNode.title = chain.map (fun b => (read_bookmark_title o b).1)
          ∧ l.map BNode.pageIndex = chain.map (bookmarkPageIndex o doc))
    ∧ (∀ k, (∀ b, sibChase o doc k (some b) = none) → traversalTerminates o doc) := by
  refine ⟨?_, ?_, ?_, ?_⟩
  · intro fuel parent depth hd hf
    exact collect_bookmarks_cap o doc fuel parent depth hd hf
  · intro fuel parent depth l hdep hc
    exact (bookmarks_depth o doc fuel).1 parent depth l hdep hc
  · intro fuel current depth l hl
    exact bookmarkLoop_order o doc fuel current depth l hl
  · intro k hk
    obtain ⟨l, hl⟩ := collect_bookmarks_total o doc k hk (MAX_BOOKMARK_DEPTH + 1) 0 none
      (by omega)
    exact ⟨bookmarkFuel k (MAX_BOOKMARK_DEPTH + 1), by rw [hl]; rfl⟩

/-- Claim C8 amended, witness: the concrete outline of oConc has finite
sibling chains (every chain dies within 2 steps), so its traversal
terminates. -/
theorem c8_amended_witness : traversalTerminates oConc 0 :=
  (c8_amended oConc 0).2.2.2 2 (by
    intro b
    show sibChase oConc 0 2 (some b) = none
    by_cases hb : b = 1
    · subst hb
      rfl
    · have h1 : oConc.bookmarkGetNextSibling 0 b = none := by
        simp [oConc, hb]
      simp [sibChase, sibStep, h1])
